import Mathlib

/-!
# Metricity: metric store, durability bridge and store boundary

A shallow embedding of the storage side of the `metricity` server
(`internal/storage/memorystorage`, `internal/storage/dbstorage`,
`internal/repositories`, `internal/filewriter`) and theorems about it.

Conventions of the embedding.

* A Go `map[string]V` is an association list with distinct keys
  (`AList`); the order of its entries stands for one possible iteration
  order, and statements about enumerations are made for every permutation.
* `int64` is `Int`; every arithmetic result is reduced with `wrapInt64`.
* `float64` is a type parameter `F`. The Go library functions on it
  (`strconv.ParseFloat`, the `%v` and `%f` verbs of `fmt`) and
  HMAC-SHA256 are not code of the repository: they are the fields of
  `GoLib`, and what a theorem needs of them is a hypothesis.
* A nil pointer dereference is the outcome `Outcome.panicked`, carried
  next to the state reached when it happened.
* Locks are not modelled: every operation is one atomic step.
-/

namespace Metricity

/-! ## Go library: integers and their decimal text -/

/-- Least value of a Go `int64`. -/
def minInt64 : Int := -9223372036854775808

/-- Greatest value of a Go `int64`. -/
def maxInt64 : Int := 9223372036854775807

/-- Range predicate of `int64`, as a boolean. -/
def inInt64 (x : Int) : Bool := decide (minInt64 ≤ x) && decide (x ≤ maxInt64)

/-- Two-complement reduction of an exact integer to `int64`. -/
def wrapInt64 (x : Int) : Int := (x + 9223372036854775808) % 18446744073709551616 - 9223372036854775808

/-- Character of a decimal digit. -/
def digitChar (d : Nat) : Char := Char.ofNat (48 + d)

/-- Value of a decimal digit character, `none` for any other character. -/
def digitVal (c : Char) : Option Nat :=
  if 48 ≤ c.toNat ∧ c.toNat ≤ 57 then some (c.toNat - 48) else none

/-- Decimal digits of a natural number, most significant first; the first
argument bounds the number of digits produced. -/
def formatNatAux : Nat → Nat → List Char → List Char
  | 0, _, acc => acc
  | fuel + 1, n, acc =>
    if n < 10 then digitChar n :: acc
    else formatNatAux fuel (n / 10) (digitChar (n % 10) :: acc)

/-- Decimal digits of a natural number. -/
def formatNat (n : Nat) : List Char := formatNatAux (n + 1) n []

/-- Text of an integer under `fmt.Sprintf("%v", x)` and `"%d"`: an optional
minus sign and the decimal digits. -/
def FormatInt (x : Int) : String :=
  String.mk (if x < 0 then '-' :: formatNat x.natAbs else formatNat x.natAbs)

/-- Value of a run of decimal digits read left to right onto an accumulator,
`none` as soon as a character is not a digit. -/
def parseDigits : List Char → Nat → Option Nat
  | [], acc => some acc
  | c :: cs, acc =>
    match digitVal c with
    | none => none
    | some d => parseDigits cs (acc * 10 + d)

/-- Go `strconv.ParseInt(s, 10, 64)`: an optional sign, at least one decimal
digit, nothing else, and a value within `int64`; `none` stands for the
syntax and range errors. -/
def ParseInt (s : String) : Option Int :=
  match s.data with
  | [] => none
  | c :: cs =>
    let ds := if c = '-' ∨ c = '+' then cs else c :: cs
    match ds with
    | [] => none
    | _ :: _ =>
      match parseDigits ds 0 with
      | none => none
      | some n =>
        let v : Int := if c = '-' then -(n : Int) else (n : Int)
        if inInt64 v then some v else none

/-- Go `strconv.Atoi` on a platform whose `int` has 64 bits: it accepts and
rejects the same strings as `ParseInt(s, 10, 64)`. -/
def Atoi (s : String) : Option Int := ParseInt s

/-! ## Go library: floats and HMAC -/

/-- Library functions that the repository calls on `float64` values and on
byte strings, left uninterpreted. -/
structure GoLib (F : Type) where
  /-- `strconv.ParseFloat(s, 64)`, `none` for an error. -/
  ParseFloat : String → Option F
  /-- `fmt.Sprintf("%v", x)` for a `float64`. -/
  FormatV : F → String
  /-- `fmt.Sprintf("%f", x)` for a `float64`. -/
  FormatF : F → String
  /-- `hex.EncodeToString` of the HMAC-SHA256 of `data` under `key`. -/
  HmacSHA256Hex : (key : String) → (data : String) → String
  /-- The `float64` value of the literal `0`. -/
  Zero : F

/-! ## Metric model (`internal/repositories`) -/

deriving instance DecidableEq for Except

/-- Errors of the store and of the store boundary: the sentinel values of
package `repositories` and the errors built with `fmt.Errorf` or `errors.New`
in the stores. -/
inductive Error where
  | ErrMetricNotFound
  | ErrCantParseCounter
  | ErrCantParseGauge
  | ErrUndefinedMetricType
  | ErrIncorrectHash
  | ErrUnableUpdateCounter
  | ErrUnableUpdateGauge
  | ErrIncorrectCounterValue
  | ErrIncorrectGaugeValue
  | parseGauge (value : String)
  | parseCounter (value : String)
  | counterNotStored
  | gaugeNotFound (name : String)
  | counterNotFound (name : String)
  | statement (text : String)
  deriving DecidableEq, Repr

/-- Record `repositories.Metrics`; the pointer fields `Delta` and `Value`
are options, `none` for nil. -/
structure Metrics (F : Type) where
  ID : String
  MType : String
  Delta : Option Int := none
  Value : Option F := none
  Hash : String := ""
  deriving DecidableEq, Repr

/-- Result of a call: it returns, or it panics (nil pointer dereference), or
it ends the process (`log.Fatalf`). -/
inductive Outcome (α : Type) where
  | returned (a : α)
  | panicked
  | exited
  deriving DecidableEq, Repr

/-! ## Memory store (`internal/storage/memorystorage`) -/

/-- Go map from metric id to value. -/
abbrev GoMap (V : Type) := AList (fun _ : String => V)

/-- State of `MemStorage`: the gauge namespace and the counter namespace. -/
structure MemStorage (F : Type) where
  GaugeMetrics : GoMap F
  CounterMetrics : GoMap Int
  deriving DecidableEq

namespace MemStorage

variable {F : Type}

/-- Method `UpdateGaugeMetrics`: parse, then replace the stored value. -/
def UpdateGaugeMetrics (lib : GoLib F) (m : MemStorage F) (name value : String) :
    MemStorage F × Option Error :=
  match lib.ParseFloat value with
  | none => (m, some (Error.parseGauge value))
  | some g => ({ m with GaugeMetrics := m.GaugeMetrics.insert name g }, none)

/-- Method `UpdateCounterMetrics`: parse, add to the stored total (zero when
the id is absent), read the total back and return it. -/
def UpdateCounterMetrics (m : MemStorage F) (name value : String) :
    MemStorage F × Except Error Int :=
  match Atoi value with
  | none => (m, Except.error (Error.parseCounter value))
  | some g =>
    let cur := (m.CounterMetrics.lookup name).getD 0
    let m1 : MemStorage F :=
      { m with CounterMetrics := m.CounterMetrics.insert name (wrapInt64 (cur + g)) }
    match m1.CounterMetrics.lookup name with
    | none => (m1, Except.error Error.counterNotStored)
    | some v => (m1, Except.ok v)

/-- Method `GetGaugeMetrics`. -/
def GetGaugeMetrics (lib : GoLib F) (m : MemStorage F) (name : String) : Except Error String :=
  match m.GaugeMetrics.lookup name with
  | none => Except.error (Error.gaugeNotFound name)
  | some v => Except.ok (lib.FormatV v)

/-- Method `GetCounterMetrics`. -/
def GetCounterMetrics (m : MemStorage F) (name : String) : Except Error String :=
  match m.CounterMetrics.lookup name with
  | none => Except.error (Error.counterNotFound name)
  | some v => Except.ok (FormatInt v)

/-- Successive calls `UpdateCounterMetrics(name, v)` for the values of a
list, in order: the final state and the results of the calls. -/
def counterCalls (m : MemStorage F) (name : String) :
    List String → MemStorage F × List (Except Error Int)
  | [] => (m, [])
  | v :: vs =>
    let r := m.UpdateCounterMetrics name v
    let rest := counterCalls r.1 name vs
    (rest.1, r.2 :: rest.2)

/-- Package variable `metricsList`: the ids seeded as gauges. -/
def metricsList : List String :=
  ["Alloc", "BuckHashSys", "Frees", "GCCPUFraction", "GCSys", "HeapAlloc", "HeapIdle",
   "HeapInuse", "HeapObjects", "HeapReleased", "HeapSys", "LastGC", "Lookups", "MCacheInuse",
   "MCacheSys", "MSpanInuse", "MSpanSys", "Mallocs", "NextGC", "NumForcedGC", "NumGC",
   "OtherSys", "PauseTotalNs", "StackInuse", "StackSys", "Sys", "TotalAlloc", "RandomValue"]

/-- Function `NewRepository`: every id of `metricsList` is a gauge of value
zero and `PollCount` is a counter of value zero. -/
def NewRepository (lib : GoLib F) : MemStorage F where
  GaugeMetrics := metricsList.foldl (fun g v => g.insert v lib.Zero) ∅
  CounterMetrics := (∅ : GoMap Int).insert "PollCount" 0

/-- Method `UpdateBatchMetrics`: the entries are applied one after the
other; `*v.Delta` and `*v.Value` panic on a nil pointer, and the state then
keeps what the earlier entries wrote. An entry of another kind is skipped. -/
def UpdateBatchMetrics (m : MemStorage F) :
    List (Metrics F) → MemStorage F × Outcome (Option Error)
  | [] => (m, Outcome.returned none)
  | v :: vs =>
    if v.MType = "counter" then
      match v.Delta with
      | none => (m, Outcome.panicked)
      | some d =>
        let cur := (m.CounterMetrics.lookup v.ID).getD 0
        UpdateBatchMetrics
          { m with CounterMetrics := m.CounterMetrics.insert v.ID (wrapInt64 (cur + d)) } vs
    else if v.MType = "gauge" then
      match v.Value with
      | none => (m, Outcome.panicked)
      | some x =>
        UpdateBatchMetrics { m with GaugeMetrics := m.GaugeMetrics.insert v.ID x } vs
    else UpdateBatchMetrics m vs

/-- Method `GetAllGaugeMetrics`: one record of kind gauge per entry of the
gauge namespace, in the order of the entries. -/
def GetAllGaugeMetrics (m : MemStorage F) : List (Metrics F) :=
  m.GaugeMetrics.entries.map
    (fun e => { ID := e.1, MType := "gauge", Value := some e.2 })

/-- Method `GetAllCounterMetrics`: one record of kind counter per entry of
the counter namespace, in the order of the entries. -/
def GetAllCounterMetrics (m : MemStorage F) : List (Metrics F) :=
  m.CounterMetrics.entries.map
    (fun e => { ID := e.1, MType := "counter", Delta := some e.2 })

/-- Method `Ping`. -/
def Ping (_m : MemStorage F) : Option Error := none

end MemStorage

/-! ## Store boundary (`internal/repositories`) -/

/-- Interface `repositories.Storage` over a store state `σ`. -/
structure Storage (F σ : Type) where
  UpdateBatchMetrics : σ → List (Metrics F) → σ × Outcome (Option Error)
  UpdateGaugeMetrics : σ → String → String → σ × Option Error
  UpdateCounterMetrics : σ → String → String → σ × Except Error Int
  GetGaugeMetrics : σ → String → Except Error String
  GetCounterMetrics : σ → String → Except Error String
  GetAllGaugeMetrics : σ → List (Metrics F)
  GetAllCounterMetrics : σ → List (Metrics F)
  Ping : σ → Option Error

/-- Interface `repositories.FileRepository` over a file state `φ` (the two
close methods are left out). `Sync` and `SaveToDisk` have an outcome, for the
implementations that dereference a nil pointer. -/
structure FileRepository (F φ : Type) where
  Sync : φ → Outcome Bool
  LoadFromDisk : φ → φ × List (Metrics F) × Option Error
  SaveAllToDisk : φ → List (Metrics F) → φ × Option Error
  SaveToDisk : φ → Metrics F → φ × Outcome (Option Error)

/-- The memory store as an implementation of `Storage`. -/
def MemStorage.asStorage {F : Type} (lib : GoLib F) : Storage F (MemStorage F) where
  UpdateBatchMetrics := MemStorage.UpdateBatchMetrics
  UpdateGaugeMetrics := MemStorage.UpdateGaugeMetrics lib
  UpdateCounterMetrics := MemStorage.UpdateCounterMetrics
  GetGaugeMetrics := MemStorage.GetGaugeMetrics lib
  GetCounterMetrics := MemStorage.GetCounterMetrics
  GetAllGaugeMetrics := MemStorage.GetAllGaugeMetrics
  GetAllCounterMetrics := MemStorage.GetAllCounterMetrics
  Ping := MemStorage.Ping

/-- Record `Storager`: a store, an optional file repository (nil is `none`)
and the signing key. -/
structure Storager (F σ φ : Type) where
  Repo : Storage F σ
  FileRepo : Option (FileRepository F φ)
  Key : String

/-- Function `hash` of package `repositories`: hex HMAC-SHA256 of `s` under
the key `k`. -/
def hash {F : Type} (lib : GoLib F) (s k : String) : String := lib.HmacSHA256Hex k s

namespace Storager

variable {F σ φ : Type}

/-- Method `UpdateBatchMetrics`: the batch goes to the store as it is. -/
def UpdateBatchMetrics (s : Storager F σ φ) (st : σ) (metrics : List (Metrics F)) :
    σ × Outcome (Option Error) :=
  match s.Repo.UpdateBatchMetrics st metrics with
  | (st1, Outcome.returned (some err)) => (st1, Outcome.returned (some err))
  | (st1, Outcome.returned none) => (st1, Outcome.returned none)
  | (st1, Outcome.panicked) => (st1, Outcome.panicked)
  | (st1, Outcome.exited) => (st1, Outcome.exited)

/-- Tail of `UpdateMetrics` (lines 193 to 198): with a file repository whose
`Sync()` holds the metric is saved, an error of the save is only logged, and
the metric is returned. -/
def syncAndReturn (s : Storager F σ φ) (st : σ) (fs : φ) (metrics : Metrics F) :
    σ × φ × Outcome (Except Error (Metrics F)) :=
  match s.FileRepo with
  | none => (st, fs, Outcome.returned (Except.ok metrics))
  | some fr =>
    match fr.Sync fs with
    | Outcome.returned true =>
      match fr.SaveToDisk fs metrics with
      | (fs1, Outcome.returned _) => (st, fs1, Outcome.returned (Except.ok metrics))
      | (fs1, Outcome.panicked) => (st, fs1, Outcome.panicked)
      | (fs1, Outcome.exited) => (st, fs1, Outcome.exited)
    | Outcome.returned false => (st, fs, Outcome.returned (Except.ok metrics))
    | Outcome.panicked => (st, fs, Outcome.panicked)
    | Outcome.exited => (st, fs, Outcome.exited)

/-- Method `UpdateMetrics`: dispatch on the kind, nil check of the field of
that kind, signature check when a key is configured, update of the store,
then the optional save. -/
def UpdateMetrics (lib : GoLib F) (s : Storager F σ φ) (st : σ) (fs : φ)
    (metrics : Metrics F) : σ × φ × Outcome (Except Error (Metrics F)) :=
  if metrics.MType = "counter" then
    match metrics.Delta with
    | some d =>
      if s.Key ≠ "" ∧
          hash lib (metrics.ID ++ ":counter:" ++ FormatInt d) s.Key ≠ metrics.Hash then
        (st, fs, Outcome.returned (Except.error Error.ErrIncorrectHash))
      else
        match s.Repo.UpdateCounterMetrics st metrics.ID (FormatInt d) with
        | (st1, Except.error _) =>
          (st1, fs, Outcome.returned (Except.error Error.ErrUnableUpdateCounter))
        | (st1, Except.ok v) => syncAndReturn s st1 fs { metrics with Delta := some v }
    | none => (st, fs, Outcome.returned (Except.error Error.ErrIncorrectCounterValue))
  else if metrics.MType = "gauge" then
    match metrics.Value with
    | some x =>
      if s.Key ≠ "" ∧
          hash lib (metrics.ID ++ ":gauge:" ++ lib.FormatF x) s.Key ≠ metrics.Hash then
        (st, fs, Outcome.returned (Except.error Error.ErrIncorrectHash))
      else
        match s.Repo.UpdateGaugeMetrics st metrics.ID (lib.FormatV x) with
        | (st1, some _) =>
          (st1, fs, Outcome.returned (Except.error Error.ErrUnableUpdateGauge))
        | (st1, none) => syncAndReturn s st1 fs metrics
    | none => (st, fs, Outcome.returned (Except.error Error.ErrIncorrectGaugeValue))
  else (st, fs, Outcome.returned (Except.error Error.ErrUndefinedMetricType))

end Storager

/-! ## Durability bridge (`internal/filewriter`) -/

/-- Record `Filer`. -/
structure Filer (F σ φ : Type) where
  FileRepo : FileRepository F φ
  Repo : Storage F σ
  StoreInterval : Nat
  Restore : Bool

namespace Filer

variable {F σ φ : Type}

/-- Method `Save`: all counters followed by all gauges go to
`SaveAllToDisk`. -/
def Save (f : Filer F σ φ) (st : σ) (fs : φ) : φ × Option Error :=
  let metrics := f.Repo.GetAllCounterMetrics st ++ f.Repo.GetAllGaugeMetrics st
  match f.FileRepo.SaveAllToDisk fs metrics with
  | (fs1, some err) => (fs1, some err)
  | (fs1, none) => (fs1, none)

/-- Loop of `Load`: every record of kind counter is replayed with
`UpdateCounterMetrics` and every record of kind gauge with
`UpdateGaugeMetrics`, on the text of its field; an error of the store is only
logged, a nil field panics, a record of another kind is skipped. -/
def replay (lib : GoLib F) (repo : Storage F σ) : σ → List (Metrics F) → σ × Outcome Unit
  | st, [] => (st, Outcome.returned ())
  | st, v :: vs =>
    if v.MType = "counter" then
      match v.Delta with
      | none => (st, Outcome.panicked)
      | some d => replay lib repo (repo.UpdateCounterMetrics st v.ID (FormatInt d)).1 vs
    else if v.MType = "gauge" then
      match v.Value with
      | none => (st, Outcome.panicked)
      | some x => replay lib repo (repo.UpdateGaugeMetrics st v.ID (lib.FormatV x)).1 vs
    else replay lib repo st vs

/-- Method `Load`: the list read by `LoadFromDisk` (used whatever the error
it comes with) is replayed into the store. -/
def Load (lib : GoLib F) (f : Filer F σ φ) (st : σ) (fs : φ) : σ × φ × Outcome Unit :=
  match f.FileRepo.LoadFromDisk fs with
  | (fs1, metrics, _) =>
    let r := replay lib f.Repo st metrics
    (r.1, fs1, r.2)

end Filer

/-! ## Relational store (`internal/storage/dbstorage`) -/

/-- Behaviour of the `database/sql` calls made by
`PostgreRepo.UpdateBatchMetrics`, over a table content `τ`: whether `Begin`,
the two `Prepare`, `Rollback` and `Commit` report an error, and what the two
prepared upserts do to the content seen by the transaction. -/
structure SQLDB (F τ : Type) where
  Begin : Option Error
  PrepareGauge : Option Error
  PrepareCounter : Option Error
  ExecGauge : τ → (metricID : String) → (type : String) → F → Except Error τ
  ExecCounter : τ → (metricID : String) → (type : String) → Int → Except Error τ
  Rollback : Option Error
  Commit : Option Error

namespace PostgreRepo

variable {F τ : Type}

/-- Loop and commit of `UpdateBatchMetrics`. `committed` is the table as
other transactions see it, `work` the content seen inside the transaction.
When a statement fails the transaction is rolled back and the variable `err`,
overwritten by the result of `Rollback`, is returned: nil when the rollback
worked. A failing `Rollback` or `Commit` ends the process. -/
def execBatch (db : SQLDB F τ) (committed : τ) :
    τ → List (Metrics F) → τ × Outcome (Option Error)
  | work, [] =>
    match db.Commit with
    | some _ => (committed, Outcome.exited)
    | none => (work, Outcome.returned none)
  | work, v :: vs =>
    if v.MType = "gauge" then
      match v.Value with
      | none => (committed, Outcome.panicked)
      | some x =>
        match db.ExecGauge work v.ID v.MType x with
        | Except.error _ =>
          match db.Rollback with
          | some _ => (committed, Outcome.exited)
          | none => (committed, Outcome.returned none)
        | Except.ok work1 => execBatch db committed work1 vs
    else if v.MType = "counter" then
      match v.Delta with
      | none => (committed, Outcome.panicked)
      | some d =>
        match db.ExecCounter work v.ID v.MType d with
        | Except.error _ =>
          match db.Rollback with
          | some _ => (committed, Outcome.exited)
          | none => (committed, Outcome.returned none)
        | Except.ok work1 => execBatch db committed work1 vs
    else execBatch db committed work vs

/-- Method `UpdateBatchMetrics`: begin, prepare the two upserts, run the
batch inside the transaction, commit. -/
def UpdateBatchMetrics (db : SQLDB F τ) (table : τ) (metrics : List (Metrics F)) :
    τ × Outcome (Option Error) :=
  match db.Begin with
  | some err => (table, Outcome.returned (some err))
  | none =>
    match db.PrepareGauge with
    | some err => (table, Outcome.returned (some err))
    | none =>
      match db.PrepareCounter with
      | some err => (table, Outcome.returned (some err))
      | none => execBatch db table table metrics

end PostgreRepo

/-- Row of table `metrics` as created by `NewRepository`:
`metricID VARCHAR(50) UNIQUE NOT NULL, type varchar(20), counter bigint,
gauge double precision`. -/
structure Row (F : Type) where
  metricID : String
  type : String
  counter : Option Int := none
  gauge : Option F := none
  deriving DecidableEq, Repr

/-- Assignment of a string to a column of type `varchar(n)`: a longer string
is an error unless the characters in excess are all spaces, which are cut. -/
def varchar (n : Nat) (s : String) : Option String :=
  if s.length ≤ n then some s
  else if (s.data.drop n).all (fun c => c = ' ') then some (String.mk (s.data.take n))
  else none

/-- Upsert of the gauge statement on a list of rows:
`INSERT ... values($1, $2, $3) ON CONFLICT (metricID) DO UPDATE SET gauge = $3
where metrics.metricID = $1`. -/
def upsertGauge {F : Type} (rows : List (Row F)) (metricID type : String) (x : F) :
    Except Error (List (Row F)) :=
  match varchar 50 metricID, varchar 20 type with
  | some k, some ty =>
    if rows.any (fun r => r.metricID = k) then
      Except.ok (rows.map (fun r =>
        if r.metricID = k ∧ r.metricID = metricID then { r with gauge := some x } else r))
    else Except.ok (rows ++ [{ metricID := k, type := ty, gauge := some x }])
  | _, _ => Except.error (Error.statement "value too long for type character varying")

/-- New value of column `counter` under
`SET counter = COALESCE(metrics.counter,0) + $3`: out of `bigint` it is an
error. -/
def addBigint (old : Option Int) (d : Int) : Option Int :=
  if inInt64 (old.getD 0 + d) then some (old.getD 0 + d) else none

/-- Upsert of the counter statement on a list of rows:
`INSERT ... values($1, $2, $3) ON CONFLICT (metricID) DO UPDATE
SET counter = COALESCE(metrics.counter,0) + $3 where metrics.metricID = $1`. -/
def upsertCounter {F : Type} (rows : List (Row F)) (metricID type : String) (d : Int) :
    Except Error (List (Row F)) :=
  match varchar 50 metricID, varchar 20 type with
  | some k, some ty =>
    if rows.any (fun r => r.metricID = k) then
      if rows.any (fun r => r.metricID = k ∧ r.metricID = metricID ∧
          addBigint r.counter d = none) then
        Except.error (Error.statement "bigint out of range")
      else
        Except.ok (rows.map (fun r =>
          if r.metricID = k ∧ r.metricID = metricID then
            { r with counter := addBigint r.counter d } else r))
    else Except.ok (rows ++ [{ metricID := k, type := ty, counter := some d }])
  | _, _ => Except.error (Error.statement "value too long for type character varying")

/-- A database whose connection works and whose table enforces the declared
column types. -/
def pgTable (F : Type) : SQLDB F (List (Row F)) where
  Begin := none
  PrepareGauge := none
  PrepareCounter := none
  ExecGauge := upsertGauge
  ExecCounter := upsertCounter
  Rollback := none
  Commit := none

/-! ## Store boundary: reads -/

/-- A call of `MemStorage.GetGaugeMetrics` as a step of the store: the method
takes the read lock, indexes the map and formats the value; it assigns to no
field, so the state after the call is the state before. -/
def MemStorage.getGaugeCall {F : Type} (lib : GoLib F) (m : MemStorage F) (name : String) :
    MemStorage F × Except Error String :=
  (m, m.GetGaugeMetrics lib name)

/-- A call of `MemStorage.GetCounterMetrics` as a step of the store, in the
same way. -/
def MemStorage.getCounterCall {F : Type} (m : MemStorage F) (name : String) :
    MemStorage F × Except Error String :=
  (m, m.GetCounterMetrics name)

/-- Method `Storager.GetMetric`: the text read from the store is parsed back
into the field of the kind; an error of the store becomes `ErrMetricNotFound`;
with a key the hash of the canonical string is attached. -/
def Storager.GetMetric {F σ φ : Type} (lib : GoLib F) (s : Storager F σ φ) (st : σ)
    (m : Metrics F) : Except Error (Metrics F) :=
  if m.MType = "counter" then
    match s.Repo.GetCounterMetrics st m.ID with
    | Except.error _ => Except.error Error.ErrMetricNotFound
    | Except.ok v =>
      match ParseInt v with
      | none => Except.error Error.ErrCantParseCounter
      | some x =>
        if s.Key ≠ "" then
          Except.ok { m with
            Delta := some x, Hash := hash lib (m.ID ++ ":counter:" ++ FormatInt x) s.Key }
        else Except.ok { m with Delta := some x }
  else if m.MType = "gauge" then
    match s.Repo.GetGaugeMetrics st m.ID with
    | Except.error _ => Except.error Error.ErrMetricNotFound
    | Except.ok v =>
      match lib.ParseFloat v with
      | none => Except.error Error.ErrCantParseGauge
      | some x =>
        if s.Key ≠ "" then
          Except.ok { m with
            Value := some x, Hash := hash lib (m.ID ++ ":gauge:" ++ lib.FormatF x) s.Key }
        else Except.ok { m with Value := some x }
  else Except.error Error.ErrUndefinedMetricType

/-! ## File store (`internal/storage/filestorage`) -/

/-- State of a `FileStore`: the list of records that the decoder reads from
the file, and the store interval. Opening, seeking, decoding and encoding are
taken to work. -/
structure FileStore (F : Type) where
  persisted : List (Metrics F)
  StoreInterval : Nat
  deriving DecidableEq

namespace FileStore

variable {F : Type}

/-- Method `Sync`. -/
def Sync (f : FileStore F) : Bool := decide (f.StoreInterval = 0)

/-- Method `SaveAllToDisk`: the file is rewritten with the list. -/
def SaveAllToDisk (f : FileStore F) (m : List (Metrics F)) : FileStore F × Option Error :=
  ({ f with persisted := m }, none)

/-- Method `LoadFromDisk`. -/
def LoadFromDisk (f : FileStore F) : FileStore F × List (Metrics F) × Option Error :=
  (f, f.persisted, none)

/-- Loop of `SaveToDisk` over the decoded list `x`: the first record whose
id is the id of `m` is the one rewritten, by the kind of that record:
`*x[i].Delta = *m.Delta` for a counter, `*x[i].Value = *m.Value` for a gauge,
either of which panics when one of the two pointers is nil. The result is
the rewritten list, or `none` when no record has the id. -/
def merge : List (Metrics F) → Metrics F → Outcome (Option (List (Metrics F)))
  | [], _ => Outcome.returned none
  | v :: vs, m =>
    if v.ID = m.ID then
      if v.MType = "counter" then
        match v.Delta, m.Delta with
        | some _, some d => Outcome.returned (some ({ v with Delta := some d } :: vs))
        | _, _ => Outcome.panicked
      else if v.MType = "gauge" then
        match v.Value, m.Value with
        | some _, some x => Outcome.returned (some ({ v with Value := some x } :: vs))
        | _, _ => Outcome.panicked
      else Outcome.returned (some (v :: vs))
    else
      match merge vs m with
      | Outcome.returned (some vs1) => Outcome.returned (some (v :: vs1))
      | Outcome.returned none => Outcome.returned none
      | Outcome.panicked => Outcome.panicked
      | Outcome.exited => Outcome.exited

/-- Method `SaveToDisk`: read the list, rewrite the record of the id or
append the metric, write the list back. A panic of the loop comes before the
file is truncated. -/
def SaveToDisk (f : FileStore F) (m : Metrics F) : FileStore F × Outcome (Option Error) :=
  match merge f.persisted m with
  | Outcome.returned (some x) => ({ f with persisted := x }, Outcome.returned none)
  | Outcome.returned none => ({ f with persisted := f.persisted ++ [m] }, Outcome.returned none)
  | Outcome.panicked => (f, Outcome.panicked)
  | Outcome.exited => (f, Outcome.exited)

/-- The file store as an implementation of `FileRepository`. -/
def asFileRepository (F : Type) : FileRepository F (FileStore F) where
  Sync := fun f => Outcome.returned f.Sync
  LoadFromDisk := LoadFromDisk
  SaveAllToDisk := SaveAllToDisk
  SaveToDisk := SaveToDisk

end FileStore

/-- The boundary with the same store and key and no file repository. -/
def Storager.withoutFile {F σ φ : Type} (s : Storager F σ φ) : Storager F σ Unit where
  Repo := s.Repo
  FileRepo := none
  Key := s.Key

/-! ## Agent (`cmd/agent`) -/

namespace Agent

/-- Record `MetricValues`: the sampled gauges and the sample counter. -/
structure MetricValues (F : Type) where
  Gauge : GoMap F
  PollCount : Int
  deriving DecidableEq

/-- Function `hash` of the agent: hex HMAC-SHA256 of `s` under the key `k`. -/
def hash {F : Type} (lib : GoLib F) (s k : String) : String := lib.HmacSHA256Hex k s

/-- Kinds of `reflect.Kind` that the fields of `runtime.MemStats` have. -/
inductive Kind where
  | Bool
  | Uint32
  | Uint64
  | Float64
  | Array
  deriving DecidableEq, Repr

/-- A field of the statistics record as reflection shows it: its name, its
kind and, for an unsigned field, what `Uint()` returns. -/
structure StatField where
  Name : String
  Kind : Kind
  Uint : Nat
  deriving DecidableEq, Repr

/-- Body of the loop of `collectMetrics` for one key `k` of the gauge map:
`RandomValue` takes the random value, and every field of the record whose name
is `k` and whose kind is `Uint64` is copied into the gauge. -/
def collectKey {F : Type} (ofUint64 : Nat → F) (rand : F) (ms : List StatField)
    (g : GoMap F) (k : String) : GoMap F :=
  ms.foldl
    (fun g2 fld =>
      if fld.Name = k ∧ fld.Kind = Kind.Uint64 then g2.insert k (ofUint64 fld.Uint) else g2)
    (if k = "RandomValue" then g.insert k rand else g)

/-- Function `collectMetrics`, given the statistics record read by
`runtime.ReadMemStats`, the value drawn by `rand.Float64()` and the
conversion of a `uint64` to a gauge: the sample counter is incremented and
every key of the gauge map is visited. -/
def collectMetrics {F : Type} (ofUint64 : Nat → F) (rand : F) (ms : List StatField)
    (metricList : MetricValues F) : MetricValues F where
  PollCount := wrapInt64 (metricList.PollCount + 1)
  Gauge := metricList.Gauge.keys.foldl (collectKey ofUint64 rand ms) metricList.Gauge

/-- Function `getMetricNames`. -/
def getMetricNames : List String :=
  ["Alloc", "BuckHashSys", "Frees", "GCCPUFraction", "GCSys", "HeapAlloc", "HeapIdle",
   "HeapInuse", "HeapObjects", "HeapReleased", "HeapSys", "LastGC", "Lookups", "MCacheInuse",
   "MCacheSys", "MSpanInuse", "MSpanSys", "Mallocs", "NextGC", "NumForcedGC", "NumGC",
   "OtherSys", "PauseTotalNs", "StackInuse", "StackSys", "Sys", "TotalAlloc", "RandomValue"]

/-- Reporting branch of `RunAgent`, up to the request: one metric of kind
gauge per entry of the gauge map, then the counter `PollCount`; with a key
every metric gets the hash of its canonical string. -/
def reportBatch {F : Type} (lib : GoLib F) (metrics : MetricValues F) (key : String) :
    List (Metrics F) :=
  metrics.Gauge.entries.map
      (fun e =>
        { ID := e.1, MType := "gauge", Value := some e.2,
          Hash := if key ≠ "" then hash lib (e.1 ++ ":gauge:" ++ lib.FormatF e.2) key else "" }) ++
    [{ ID := "PollCount", MType := "counter", Delta := some metrics.PollCount,
       Hash :=
        if key ≠ "" then hash lib ("PollCount" ++ ":counter:" ++ FormatInt metrics.PollCount) key
        else "" }]

/-- The reporting branch as a step of the agent: the branch reads the sample
set and assigns to none of its fields, so the sample set after is the one
before; the second component is the batch. -/
def reportStep {F : Type} (lib : GoLib F) (metrics : MetricValues F) (key : String) :
    MetricValues F × List (Metrics F) :=
  (metrics, reportBatch lib metrics key)

/-- Target of an attempt of `sendMetricsRetryFallback`. -/
inductive Target where
  | primary
  | fallback
  deriving DecidableEq, Repr

/-- Error of `sendMetricsRetryFallback`. -/
inductive SendError where
  | fallbackFailed
  deriving DecidableEq, Repr

/-- Loop of `sendMetricsRetryFallback` with `n` iterations left. `client k t`
tells whether the call number `k` of `Client.Do`, made to the target `t`,
succeeds (no error and status 200). The log is the list of the attempts
made; the flag tells whether the last one succeeded. -/
def primaryLoop (client : Nat → Target → Bool) : Nat → List Target → List Target × Bool
  | 0, log => (log, false)
  | n + 1, log =>
    if client log.length Target.primary then (log ++ [Target.primary], true)
    else primaryLoop client n (log ++ [Target.primary])

/-- Method `sendMetricsRetryFallback`: the attempts made and the result;
`fallbackReq` tells whether a fallback request is given (is not nil). -/
def sendMetricsRetryFallback (client : Nat → Target → Bool) (fallbackReq : Bool) :
    List Target × Option SendError :=
  match primaryLoop client (3 + 1) [] with
  | (log, true) => (log, none)
  | (log, false) =>
    if fallbackReq then
      if client log.length Target.fallback then (log ++ [Target.fallback], none)
      else (log ++ [Target.fallback], some SendError.fallbackFailed)
    else (log, none)

end Agent

/-! ## Path-encoded update handler (`internal/handlers`) -/

/-- What a handler wrote: the status and the `Content-Type` header, `none`
when it set none. -/
structure Response where
  Status : Nat
  ContentType : Option String
  deriving DecidableEq, Repr

namespace ServerHandlers

variable {F σ φ : Type}

/-- Status that `update` writes for an error of `UpdateMetrics`. -/
def updateErrorStatus (err : Error) : Nat :=
  match err with
  | Error.ErrIncorrectHash => 400
  | Error.ErrIncorrectCounterValue => 400
  | Error.ErrIncorrectGaugeValue => 400
  | Error.ErrUnableUpdateCounter => 500
  | Error.ErrUnableUpdateGauge => 500
  | Error.ErrUndefinedMetricType => 501
  | _ => 501

/-- End of `update`: the call of `UpdateMetrics` and the response. -/
def updateStore (lib : GoLib F) (s : Storager F σ φ) (st : σ) (fs : φ) (metrics : Metrics F) :
    σ × φ × Outcome Response :=
  match s.UpdateMetrics lib st fs metrics with
  | (st1, fs1, Outcome.returned (Except.error err)) =>
    (st1, fs1, Outcome.returned { Status := updateErrorStatus err, ContentType := none })
  | (st1, fs1, Outcome.returned (Except.ok _)) =>
    (st1, fs1, Outcome.returned { Status := 200, ContentType := some "text/plain" })
  | (st1, fs1, Outcome.panicked) => (st1, fs1, Outcome.panicked)
  | (st1, fs1, Outcome.exited) => (st1, fs1, Outcome.exited)

/-- Method `update` for the URL parameters `type`, `metricname` and
`metricvalue`: 400 when the value is not a float; for the type `counter` 500
when it is not an integer; for the type `gauge` 500 when the second parse
fails; then the update of the store. -/
def update (lib : GoLib F) (s : Storager F σ φ) (st : σ) (fs : φ) (t n m : String) :
    σ × φ × Outcome Response :=
  match lib.ParseFloat m with
  | none => (st, fs, Outcome.returned { Status := 400, ContentType := none })
  | some _ =>
    let metrics : Metrics F := { ID := n, MType := t }
    if t = "counter" then
      match ParseInt m with
      | none => (st, fs, Outcome.returned { Status := 500, ContentType := none })
      | some d => updateStore lib s st fs { metrics with Delta := some d }
    else if t = "gauge" then
      match lib.ParseFloat m with
      | none => (st, fs, Outcome.returned { Status := 500, ContentType := none })
      | some x => updateStore lib s st fs { metrics with Value := some x }
    else updateStore lib s st fs metrics

end ServerHandlers

/-- Value that `collectMetrics` leaves in the gauge `k` that held `old`: the
loop over the fields applied to the random value for `RandomValue` and to
`old` for any other name. -/
def Agent.sampledValue {F : Type} (ofUint64 : Nat → F) (rand : F) (ms : List Agent.StatField)
    (k : String) (old : F) : F :=
  ms.foldl
    (fun v fld =>
      if fld.Name = k ∧ fld.Kind = Agent.Kind.Uint64 then ofUint64 fld.Uint else v)
    (if k = "RandomValue" then rand else old)

/-- Fields of `runtime.MemStats` of the Go runtime, in the order of the
declaration, with their kinds. -/
def Agent.memStatsFields : List (String × Agent.Kind) :=
  [("Alloc", Agent.Kind.Uint64), ("TotalAlloc", Agent.Kind.Uint64), ("Sys", Agent.Kind.Uint64),
   ("Lookups", Agent.Kind.Uint64), ("Mallocs", Agent.Kind.Uint64), ("Frees", Agent.Kind.Uint64),
   ("HeapAlloc", Agent.Kind.Uint64), ("HeapSys", Agent.Kind.Uint64),
   ("HeapIdle", Agent.Kind.Uint64), ("HeapInuse", Agent.Kind.Uint64),
   ("HeapReleased", Agent.Kind.Uint64), ("HeapObjects", Agent.Kind.Uint64),
   ("StackInuse", Agent.Kind.Uint64), ("StackSys", Agent.Kind.Uint64),
   ("MSpanInuse", Agent.Kind.Uint64), ("MSpanSys", Agent.Kind.Uint64),
   ("MCacheInuse", Agent.Kind.Uint64), ("MCacheSys", Agent.Kind.Uint64),
   ("BuckHashSys", Agent.Kind.Uint64), ("GCSys", Agent.Kind.Uint64),
   ("OtherSys", Agent.Kind.Uint64), ("NextGC", Agent.Kind.Uint64),
   ("LastGC", Agent.Kind.Uint64), ("PauseTotalNs", Agent.Kind.Uint64),
   ("PauseNs", Agent.Kind.Array), ("PauseEnd", Agent.Kind.Array),
   ("NumGC", Agent.Kind.Uint32), ("NumForcedGC", Agent.Kind.Uint32),
   ("GCCPUFraction", Agent.Kind.Float64), ("EnableGC", Agent.Kind.Bool),
   ("DebugGC", Agent.Kind.Bool), ("BySize", Agent.Kind.Array)]

/-- A reading of `runtime.MemStats` as reflection shows it; `u` gives, by the
name of the field, the number the field holds. -/
def Agent.memStats (u : String → Nat) : List Agent.StatField :=
  Agent.memStatsFields.map (fun d => { Name := d.1, Kind := d.2, Uint := u d.1 })

/-- Function `newMetricValues`: an empty gauge map in which every name of the
list is assigned the gauge 0, and the sample counter 0. -/
def Agent.newMetricValues {F : Type} (lib : GoLib F) (metricList : List String) :
    Agent.MetricValues F where
  Gauge := metricList.foldl (fun g v => g.insert v lib.Zero) ∅
  PollCount := 0

/-- The entries of a batch applied one by one, in the order of the batch,
through the single updates of the store: a counter entry through
`UpdateCounterMetrics` with its delta in decimal, a gauge entry through
`UpdateGaugeMetrics` with its value under `%v`, an entry of another kind not
at all. The first error ends the sequence; an entry without the field of its
kind has nothing to render and ends it as well. This follows the wording of
the specification; the method of the store is `MemStorage.UpdateBatchMetrics`. -/
def MemStorage.singleUpdates {F : Type} (lib : GoLib F) :
    MemStorage F → List (Metrics F) → MemStorage F × Option Error
  | m, [] => (m, none)
  | m, v :: vs =>
    if v.MType = "counter" then
      match v.Delta with
      | none => (m, some Error.ErrIncorrectCounterValue)
      | some d =>
        match m.UpdateCounterMetrics v.ID (FormatInt d) with
        | (m1, Except.ok _) => MemStorage.singleUpdates lib m1 vs
        | (m1, Except.error err) => (m1, some err)
    else if v.MType = "gauge" then
      match v.Value with
      | none => (m, some Error.ErrIncorrectGaugeValue)
      | some x =>
        match m.UpdateGaugeMetrics lib v.ID (lib.FormatV x) with
        | (m1, none) => MemStorage.singleUpdates lib m1 vs
        | (m1, some err) => (m1, some err)
    else MemStorage.singleUpdates lib m vs

/-! ## Notions used in the statements on save and restore -/

/-- Sum of the deltas that the records of kind counter of a list carry for
one id. -/
def deltaSum {F : Type} (id : String) (l : List (Metrics F)) : Int :=
  (l.map (fun e => if e.MType = "counter" ∧ e.ID = id then e.Delta.getD 0 else 0)).sum

/-- A record as `GetAllCounterMetrics` and `GetAllGaugeMetrics` build them: of
kind counter with a delta within `int64`, or of kind gauge with a value. -/
def savedRecord {F : Type} (e : Metrics F) : Prop :=
  (e.MType = "counter" ∧ ∃ d, e.Delta = some d ∧ inInt64 d = true) ∨
    (e.MType = "gauge" ∧ ∃ x, e.Value = some x)

/-! ## Instances used to evaluate the definitions on concrete inputs -/

/-- Three `float64` values: 0, 1.5 and 2.75. -/
inductive SampleFloat where
  | f0
  | f1_5
  | f2_75
  deriving DecidableEq, Repr

/-- Library functions on `SampleFloat`: the texts are those Go gives to the
three values; only these texts are parsed, and the keyed hash is a
placeholder that keeps key and data apart. -/
def sampleLib : GoLib SampleFloat where
  ParseFloat := fun s =>
    if s = "0" then some SampleFloat.f0
    else if s = "1.5" then some SampleFloat.f1_5
    else if s = "2.75" then some SampleFloat.f2_75
    else none
  FormatV := fun x =>
    match x with
    | SampleFloat.f0 => "0"
    | SampleFloat.f1_5 => "1.5"
    | SampleFloat.f2_75 => "2.75"
  FormatF := fun x =>
    match x with
    | SampleFloat.f0 => "0.000000"
    | SampleFloat.f1_5 => "1.500000"
    | SampleFloat.f2_75 => "2.750000"
  HmacSHA256Hex := fun key data => "hmac[" ++ key ++ "][" ++ data ++ "]"
  Zero := SampleFloat.f0

/-- A file repository that keeps the saved list in memory and saves on
every update. -/
def listFile (F : Type) : FileRepository F (List (Metrics F)) where
  Sync := fun _ => Outcome.returned true
  LoadFromDisk := fun fs => (fs, fs, none)
  SaveAllToDisk := fun _ m => (m, none)
  SaveToDisk := fun fs m => (fs ++ [m], Outcome.returned none)

/-- A table with the seeded rows of `Alloc` and `PollCount`. -/
def sampleTable : List (Row SampleFloat) :=
  [{ metricID := "Alloc", type := "gauge", gauge := some SampleFloat.f0 },
   { metricID := "PollCount", type := "counter", counter := some 0 }]

/-- A metric id of 51 characters, one more than column `metricID` takes. -/
def longID : String := String.mk (List.replicate 51 'x')

/-- A memory store with the gauge `Temp` at 2.75 and the counter `Requests`
at 8. -/
def sampleStore : MemStorage SampleFloat where
  GaugeMetrics := (∅ : GoMap SampleFloat).insert "Temp" SampleFloat.f2_75
  CounterMetrics := (∅ : GoMap Int).insert "Requests" 8

/-- The bridge between the memory store on `SampleFloat` and `listFile`. -/
def sampleFiler : Filer SampleFloat (MemStorage SampleFloat) (List (Metrics SampleFloat)) where
  FileRepo := listFile SampleFloat
  Repo := MemStorage.asStorage sampleLib
  StoreInterval := 0
  Restore := true

/-- The boundary over the memory store on `SampleFloat`, without file
repository (the field is nil) and with a given key. -/
def plainStorager (key : String) : Storager SampleFloat (MemStorage SampleFloat) Unit where
  Repo := MemStorage.asStorage sampleLib
  FileRepo := none
  Key := key

/-- The boundary over the memory store on `SampleFloat`, with the file
repository `listFile` and a given key. -/
def sampleStorager (key : String) :
    Storager SampleFloat (MemStorage SampleFloat) (List (Metrics SampleFloat)) where
  Repo := MemStorage.asStorage sampleLib
  FileRepo := some (listFile SampleFloat)
  Key := key

/-- The boundary over the memory store on `SampleFloat` with a `FileStore`
as file repository and no key. -/
def fileStorager : Storager SampleFloat (MemStorage SampleFloat) (FileStore SampleFloat) where
  Repo := MemStorage.asStorage sampleLib
  FileRepo := some (FileStore.asFileRepository SampleFloat)
  Key := ""

/-- An empty file with the store interval 0 (save on every update). -/
def syncFile : FileStore SampleFloat where
  persisted := []
  StoreInterval := 0

/-- An empty file with the store interval of 300 seconds, in nanoseconds. -/
def tickFile : FileStore SampleFloat where
  persisted := []
  StoreInterval := 300000000000

/-- A sample set of the agent on `SampleFloat`: the gauges `Alloc` at 1.5 and
`RandomValue` at 2.75, and 3 samples taken. -/
def sampleValues : Agent.MetricValues SampleFloat where
  Gauge := ((∅ : GoMap SampleFloat).insert "RandomValue" SampleFloat.f2_75).insert "Alloc"
    SampleFloat.f1_5
  PollCount := 3

/-- A sample set of the agent whose gauges are whole numbers, written as
naturals: `Alloc`, `NumGC` and `RandomValue`, all at 0. -/
def wholeValues : Agent.MetricValues Nat where
  Gauge := (((∅ : GoMap Nat).insert "RandomValue" 0).insert "NumGC" 0).insert "Alloc" 0
  PollCount := 0

/-- A reading of the statistics record: 1024 bytes allocated, 7 collections,
every other unsigned field at 0. -/
def sampleStats : List Agent.StatField :=
  Agent.memStats (fun n => if n = "Alloc" then 1024 else if n = "NumGC" then 7 else 0)

/-- A sample set of the agent on whole numbers: the gauges `Alloc` at 0,
`NoSuchField` (the name of no field of the statistics record) at 4 and
`RandomValue` at 0, and 3 samples taken. -/
def frameValues : Agent.MetricValues Nat where
  Gauge := (((∅ : GoMap Nat).insert "RandomValue" 0).insert "NoSuchField" 4).insert "Alloc" 0
  PollCount := 3

/-! ## Lemmas on the integer library -/

theorem digitVal_digitChar (d : Nat) (h : d < 10) : digitVal (digitChar d) = some d := by
  interval_cases d <;> decide

theorem parseDigits_formatNatAux (fuel : Nat) :
    ∀ (n : Nat) (acc : List Char), n < fuel →
      parseDigits (formatNatAux fuel n acc) 0 = parseDigits acc n := by
  induction fuel with
  | zero => intro n acc h; omega
  | succ k ih =>
    intro n acc h
    unfold formatNatAux
    split
    · rename_i hlt
      simp [parseDigits, digitVal_digitChar n hlt]
    · rename_i hge
      rw [ih (n / 10) _ (by omega)]
      have hmod : n % 10 < 10 := Nat.mod_lt _ (by decide)
      simp only [parseDigits, digitVal_digitChar _ hmod]
      congr 1
      omega

theorem parseDigits_formatNat (n : Nat) : parseDigits (formatNat n) 0 = some n := by
  unfold formatNat
  rw [parseDigits_formatNatAux (n + 1) n [] (by omega)]
  rfl

theorem formatNatAux_ne_nil (fuel n : Nat) (acc : List Char) :
    formatNatAux (fuel + 1) n acc ≠ [] := by
  induction fuel generalizing n acc with
  | zero => unfold formatNatAux; split <;> simp [formatNatAux]
  | succ k ih =>
    unfold formatNatAux
    split
    · simp
    · exact ih _ _

theorem formatNat_cons (n : Nat) :
    ∃ c cs, formatNat n = c :: cs ∧ c ≠ '-' ∧ c ≠ '+' := by
  have hne : formatNat n ≠ [] := formatNatAux_ne_nil n n []
  have hp := parseDigits_formatNat n
  cases hl : formatNat n with
  | nil => exact absurd hl hne
  | cons c cs =>
    refine ⟨c, cs, rfl, ?_, ?_⟩
    · rintro rfl
      rw [hl] at hp
      simp [parseDigits, digitVal] at hp
    · rintro rfl
      rw [hl] at hp
      simp [parseDigits, digitVal] at hp


theorem Atoi_FormatInt (x : Int) (h : inInt64 x = true) : Atoi (FormatInt x) = some x := by
  obtain ⟨c, cs, hcs, hm, hp⟩ := formatNat_cons x.natAbs
  have hd := parseDigits_formatNat x.natAbs
  unfold Atoi ParseInt FormatInt
  by_cases hx : x < 0
  · simp only [hx, if_true]
    simp only [true_or, if_true]
    rw [hcs]
    simp only
    rw [← hcs, hd]
    have : -((x.natAbs : Nat) : Int) = x := by omega
    simp only [if_true, this, h]
  · simp only [hx, if_false]
    rw [hcs]
    simp only [hm, hp, or_self, if_false]
    rw [← hcs, hd]
    have : ((x.natAbs : Nat) : Int) = x := by omega
    simp only [hm, if_false, this, h, if_true]

theorem wrapInt64_wrap_add (a b : Int) : wrapInt64 (wrapInt64 a + b) = wrapInt64 (a + b) := by
  unfold wrapInt64
  omega

theorem wrapInt64_of_fits (x : Int) (h : inInt64 x = true) : wrapInt64 x = x := by
  unfold inInt64 minInt64 maxInt64 at h
  simp only [Bool.and_eq_true, decide_eq_true_eq] at h
  unfold wrapInt64
  omega

theorem wrapInt64_fits (x : Int) : inInt64 (wrapInt64 x) = true := by
  unfold inInt64 minInt64 maxInt64 wrapInt64
  simp only [Bool.and_eq_true, decide_eq_true_eq]
  omega

namespace MemStorage
variable {F : Type}

theorem UpdateCounterMetrics_of_parse (m : MemStorage F) (name value : String) (g : Int)
    (h : Atoi value = some g) :
    m.UpdateCounterMetrics name value =
      (⟨m.GaugeMetrics, m.CounterMetrics.insert name
          (wrapInt64 ((m.CounterMetrics.lookup name).getD 0 + g))⟩,
        Except.ok (wrapInt64 ((m.CounterMetrics.lookup name).getD 0 + g))) := by
  simp [UpdateCounterMetrics, h]

theorem counterCalls_spec (name : String) (raws : List String) (ds : List Int)
    (h : List.Forall₂ (fun r d => Atoi r = some d) raws ds) :
    ∀ (m : MemStorage F) (c : Int), (m.CounterMetrics.lookup name).getD 0 = wrapInt64 c →
      (counterCalls m name raws).2 =
        (List.range ds.length).map (fun i => Except.ok (wrapInt64 (c + (ds.take (i + 1)).sum))) ∧
      (((counterCalls m name raws).1.CounterMetrics.lookup name).getD 0 = wrapInt64 (c + ds.sum)) ∧
      (ds ≠ [] → (counterCalls m name raws).1.CounterMetrics.lookup name = some (wrapInt64 (c + ds.sum))) ∧
      (counterCalls m name raws).1.GaugeMetrics = m.GaugeMetrics := by
  induction h with
  | nil =>
    intro m c hc
    simp [counterCalls, hc]
  | @cons r d rs ds hrd _ ih =>
    intro m c hc
    have hstep := UpdateCounterMetrics_of_parse m name r d hrd
    rw [hc, wrapInt64_wrap_add] at hstep
    have hnext : ((m.UpdateCounterMetrics name r).1.CounterMetrics.lookup name).getD 0
        = wrapInt64 (c + d) := by
      rw [hstep]; simp
    obtain ⟨h1, h2, h3, h4⟩ := ih (m.UpdateCounterMetrics name r).1 (c + d) hnext
    refine ⟨?_, ?_, ?_, ?_⟩
    · simp only [counterCalls, List.length_cons, List.range_succ_eq_map, List.map_cons,
        List.map_map]
      rw [h1, hstep]
      simp [Function.comp_def, add_assoc]
    · simp only [counterCalls, List.sum_cons]
      rw [h2, add_assoc]
    · intro _
      simp only [counterCalls, List.sum_cons]
      by_cases hds : ds = []
      · subst hds
        cases ‹List.Forall₂ _ rs []›
        simp [counterCalls, hstep]
      · rw [h3 hds, add_assoc]
    · simp only [counterCalls]
      rw [h4, hstep]

end MemStorage


/-! ## Memory store: single updates -/

namespace MemStorage
variable {F : Type}

/-- Claim C1. For an id absent from the counter namespace and texts that
`Atoi` parses to the deltas `d1..dn` (n at least 1), the i-th of the
successive calls `UpdateCounterMetrics(id, ·)` returns the 64-bit sum
`d1+...+di`, `GetCounterMetrics(id)` afterwards returns the decimal text of
the 64-bit sum `d1+...+dn`, and a 64-bit sum is the exact sum whenever the
exact sum fits in `int64`. -/
theorem counter_accumulation (m : MemStorage F) (id : String) (raws : List String)
    (ds : List Int) (habsent : m.CounterMetrics.lookup id = none)
    (hparse : List.Forall₂ (fun r d => Atoi r = some d) raws ds) (hne : ds ≠ []) :
    (m.counterCalls id raws).2 =
        (List.range ds.length).map (fun i => Except.ok (wrapInt64 (ds.take (i + 1)).sum)) ∧
      (m.counterCalls id raws).1.GetCounterMetrics id =
        Except.ok (FormatInt (wrapInt64 ds.sum)) ∧
      (∀ k, inInt64 (ds.take k).sum = true → wrapInt64 (ds.take k).sum = (ds.take k).sum) := by
  have hzero : (m.CounterMetrics.lookup id).getD 0 = wrapInt64 0 := by
    rw [habsent]; rfl
  obtain ⟨h1, _, h3, _⟩ := counterCalls_spec id raws ds hparse m 0 hzero
  refine ⟨?_, ?_, fun k hk => wrapInt64_of_fits _ hk⟩
  · simpa using h1
  · have h := h3 hne
    simp only [zero_add] at h
    simp [GetCounterMetrics, h]

/-- Witness of `counter_accumulation`: on the fresh store, deltas 5 then 3
for the id `Requests` return 5 and 8 and read back as the text `8`. -/
theorem counter_accumulation_witness :
    (NewRepository sampleLib).CounterMetrics.lookup "Requests" = none ∧
      ((NewRepository sampleLib).counterCalls "Requests" ["5", "3"]).2 =
        [Except.ok 5, Except.ok 8] ∧
      ((NewRepository sampleLib).counterCalls "Requests" ["5", "3"]).1.GetCounterMetrics
        "Requests" = Except.ok "8" := by
  have h := counter_accumulation (NewRepository sampleLib) "Requests" ["5", "3"] [5, 3]
    (by decide) (List.Forall₂.cons (by decide) (List.Forall₂.cons (by decide) List.Forall₂.nil))
    (by decide)
  refine ⟨by decide, ?_, ?_⟩
  · rw [h.1]; decide
  · rw [h.2.1]; decide

/-- Claim C2. When `rawValue` parses to the float `v`, `UpdateGaugeMetrics(id,
rawValue)` returns no error and `GetGaugeMetrics(id)` then returns the text of
`v`, whatever the state before. -/
theorem gauge_last_write_wins (lib : GoLib F) (m : MemStorage F) (id rawValue : String)
    (v : F) (hparse : lib.ParseFloat rawValue = some v) :
    (m.UpdateGaugeMetrics lib id rawValue).2 = none ∧
      (m.UpdateGaugeMetrics lib id rawValue).1.GetGaugeMetrics lib id =
        Except.ok (lib.FormatV v) := by
  simp [UpdateGaugeMetrics, GetGaugeMetrics, hparse]

/-- Witness of `gauge_last_write_wins`: 2.75 written over the seeded value of
`Alloc` reads back as `2.75`. -/
theorem gauge_last_write_wins_witness :
    sampleLib.ParseFloat "2.75" = some SampleFloat.f2_75 ∧
      ((NewRepository sampleLib).UpdateGaugeMetrics sampleLib "Alloc" "2.75").2 = none ∧
      ((NewRepository sampleLib).UpdateGaugeMetrics sampleLib "Alloc" "2.75").1.GetGaugeMetrics
        sampleLib "Alloc" = Except.ok "2.75" :=
  ⟨by decide,
    gauge_last_write_wins sampleLib (NewRepository sampleLib) "Alloc" "2.75" SampleFloat.f2_75
      (by decide)⟩

/-- Claim C8. When `rawValue` does not parse as a float, `UpdateGaugeMetrics`
returns an error and the state is the one before the call; when it does not
parse as an integer, the same holds of `UpdateCounterMetrics`. -/
theorem parse_error_keeps_state (lib : GoLib F) (m : MemStorage F) (id rawValue : String) :
    (lib.ParseFloat rawValue = none →
        m.UpdateGaugeMetrics lib id rawValue = (m, some (Error.parseGauge rawValue))) ∧
      (Atoi rawValue = none →
        m.UpdateCounterMetrics id rawValue =
          (m, Except.error (Error.parseCounter rawValue))) := by
  constructor
  · intro h
    simp [UpdateGaugeMetrics, h]
  · intro h
    simp [UpdateCounterMetrics, h]

/-- Witness of `parse_error_keeps_state`: the text `abc` is neither a float
nor an integer, and leaves the fresh store as it is. -/
theorem parse_error_keeps_state_witness :
    (sampleLib.ParseFloat "abc" = none ∧ Atoi "abc" = none) ∧
      (NewRepository sampleLib).UpdateGaugeMetrics sampleLib "x" "abc" =
        (NewRepository sampleLib, some (Error.parseGauge "abc")) ∧
      (NewRepository sampleLib).UpdateCounterMetrics "x" "abc" =
        (NewRepository sampleLib, Except.error (Error.parseCounter "abc")) :=
  ⟨⟨by decide, by decide⟩,
    (parse_error_keeps_state sampleLib (NewRepository sampleLib) "x" "abc").1 (by decide),
    (parse_error_keeps_state sampleLib (NewRepository sampleLib) "x" "abc").2 (by decide)⟩

end MemStorage


/-! ## Memory store: batches -/

namespace MemStorage
variable {F : Type}

/-- Claim C3, behaviour of the code at the failing input. On the fresh store
the batch of a counter `a` with delta 1 followed by a counter `b` without
delta panics at the second entry, and the state left behind holds the total 1
for `a`, which the store did not hold before. -/
theorem batch_keeps_partial_effects (lib : GoLib F) :
    ((NewRepository lib).UpdateBatchMetrics
        [{ ID := "a", MType := "counter", Delta := some 1 },
         { ID := "b", MType := "counter" }]).2 = Outcome.panicked ∧
      ((NewRepository lib).UpdateBatchMetrics
        [{ ID := "a", MType := "counter", Delta := some 1 },
         { ID := "b", MType := "counter" }]).1.GetCounterMetrics "a" = Except.ok "1" ∧
      (NewRepository lib).GetCounterMetrics "a" = Except.error (Error.counterNotFound "a") := by
  refine ⟨?_, ?_, ?_⟩
  · simp [UpdateBatchMetrics]
  · simp [UpdateBatchMetrics, NewRepository, GetCounterMetrics]
    decide
  · simp only [NewRepository, GetCounterMetrics]
    decide

end MemStorage


/-! ## Store boundary -/

namespace Storager
variable {F σ φ : Type}

/-- The batch method of the boundary is the batch method of the store,
whatever the key and the hashes. -/
theorem UpdateBatchMetrics_eq_repo (s : Storager F σ φ) (st : σ) (metrics : List (Metrics F)) :
    s.UpdateBatchMetrics st metrics = s.Repo.UpdateBatchMetrics st metrics := by
  unfold UpdateBatchMetrics
  rcases h : s.Repo.UpdateBatchMetrics st metrics with ⟨st1, o⟩
  cases o with
  | returned a => cases a <;> rfl
  | panicked => rfl
  | exited => rfl

/-- Claim C6, behaviour of the code at the failing input. With any key
configured, the non-empty ones included, and any text in the field `hash`,
the wrong ones included, the batch of one counter `a` with delta 1 is accepted
by `Storager.UpdateBatchMetrics` over the fresh memory store: no error, and
the counter is stored. -/
theorem batch_ignores_signature (lib : GoLib F) (key hashValue : String) :
    (UpdateBatchMetrics
        ({ Repo := MemStorage.asStorage lib, FileRepo := none, Key := key } :
          Storager F (MemStorage F) Unit)
        (MemStorage.NewRepository lib)
        [{ ID := "a", MType := "counter", Delta := some 1, Hash := hashValue }]).2 =
        Outcome.returned none ∧
      (UpdateBatchMetrics
        ({ Repo := MemStorage.asStorage lib, FileRepo := none, Key := key } :
          Storager F (MemStorage F) Unit)
        (MemStorage.NewRepository lib)
        [{ ID := "a", MType := "counter", Delta := some 1, Hash := hashValue }]).1.GetCounterMetrics
          "a" = Except.ok "1" ∧
      (MemStorage.NewRepository lib).GetCounterMetrics "a" =
        Except.error (Error.counterNotFound "a") := by
  rw [UpdateBatchMetrics_eq_repo]
  refine ⟨?_, ?_, ?_⟩
  · simp [MemStorage.asStorage, MemStorage.UpdateBatchMetrics]
  · simp [MemStorage.asStorage, MemStorage.UpdateBatchMetrics, MemStorage.NewRepository,
      MemStorage.GetCounterMetrics]
    decide
  · simp only [MemStorage.NewRepository, MemStorage.GetCounterMetrics]
    decide

/-- Claim C9. `UpdateMetrics` returns `ErrIncorrectCounterValue` for a counter
without delta, `ErrIncorrectGaugeValue` for a gauge without value and
`ErrUndefinedMetricType` for any other kind, and in these cases the state of
the store and the state of the file are those before the call, for every
implementation of the store and of the file repository. -/
theorem update_validates_fields (lib : GoLib F) (s : Storager F σ φ) (st : σ) (fs : φ)
    (m : Metrics F) :
    (m.MType = "counter" → m.Delta = none →
        s.UpdateMetrics lib st fs m =
          (st, fs, Outcome.returned (Except.error Error.ErrIncorrectCounterValue))) ∧
      (m.MType = "gauge" → m.Value = none →
        s.UpdateMetrics lib st fs m =
          (st, fs, Outcome.returned (Except.error Error.ErrIncorrectGaugeValue))) ∧
      (m.MType ≠ "counter" → m.MType ≠ "gauge" →
        s.UpdateMetrics lib st fs m =
          (st, fs, Outcome.returned (Except.error Error.ErrUndefinedMetricType))) := by
  refine ⟨?_, ?_, ?_⟩
  · intro hk hd
    simp [UpdateMetrics, hk, hd]
  · intro hk hv
    simp [UpdateMetrics, hk, hv]
  · intro h1 h2
    simp [UpdateMetrics, h1, h2]

/-- Witness of `update_validates_fields`: a counter without delta, a gauge
without value and a metric of kind `histogram`, sent to the fresh memory store
with a file repository that saves on every update. -/
theorem update_validates_fields_witness :
    UpdateMetrics sampleLib
        (sampleStorager "")
        (MemStorage.NewRepository sampleLib) [] { ID := "a", MType := "counter" } =
        (MemStorage.NewRepository sampleLib, [],
          Outcome.returned (Except.error Error.ErrIncorrectCounterValue)) ∧
      UpdateMetrics sampleLib
        (sampleStorager "")
        (MemStorage.NewRepository sampleLib) [] { ID := "a", MType := "gauge" } =
        (MemStorage.NewRepository sampleLib, [],
          Outcome.returned (Except.error Error.ErrIncorrectGaugeValue)) ∧
      UpdateMetrics sampleLib
        (sampleStorager "")
        (MemStorage.NewRepository sampleLib) []
        { ID := "a", MType := "histogram", Delta := some 1 } =
        (MemStorage.NewRepository sampleLib, [],
          Outcome.returned (Except.error Error.ErrUndefinedMetricType)) :=
  ⟨(update_validates_fields sampleLib _ _ _ { ID := "a", MType := "counter" }).1 rfl rfl,
    (update_validates_fields sampleLib _ _ _ { ID := "a", MType := "gauge" }).2.1 rfl rfl,
    (update_validates_fields sampleLib _ _ _
      { ID := "a", MType := "histogram", Delta := some 1 }).2.2 (by decide) (by decide)⟩

/-- The tail of `UpdateMetrics` leaves the store as it is. -/
theorem syncAndReturn_fst (s : Storager F σ φ) (st : σ) (fs : φ) (m : Metrics F) :
    (s.syncAndReturn st fs m).1 = st := by
  unfold syncAndReturn
  cases s.FileRepo with
  | none => rfl
  | some fr =>
    simp only
    split
    · rcases fr.SaveToDisk fs m with ⟨fs1, o⟩
      cases o <;> rfl
    · rfl
    · rfl
    · rfl

/-- The tail of `UpdateMetrics` returns no error. -/
theorem syncAndReturn_ne_error (s : Storager F σ φ) (st : σ) (fs : φ) (m : Metrics F)
    (e : Error) : (s.syncAndReturn st fs m).2.2 ≠ Outcome.returned (Except.error e) := by
  unfold syncAndReturn
  cases s.FileRepo with
  | none => simp
  | some fr =>
    simp only
    split
    · rcases fr.SaveToDisk fs m with ⟨fs1, o⟩
      cases o <;> simp
    · simp
    · simp
    · simp

/-- Claim C5. For a counter carrying the delta `d` (a gauge carrying the value
`x`), `UpdateMetrics` returns `ErrIncorrectHash` exactly when the key is not
empty and the field `hash` differs from the hex HMAC-SHA256, under the key, of
`id:counter:d` with `d` in decimal (of `id:gauge:x` with `x` under `%f`); when
it does, the states of the store and of the file are those before the call;
and with the empty key it never does, whatever the field `hash`: the update
reaches the store. -/
theorem signature_check (lib : GoLib F) (s : Storager F σ φ) (st : σ) (fs : φ)
    (m : Metrics F) :
    (∀ d, m.MType = "counter" → m.Delta = some d →
        ((s.UpdateMetrics lib st fs m).2.2 = Outcome.returned (Except.error Error.ErrIncorrectHash) ↔
          s.Key ≠ "" ∧
            m.Hash ≠ lib.HmacSHA256Hex s.Key (m.ID ++ ":counter:" ++ FormatInt d)) ∧
        ((s.UpdateMetrics lib st fs m).2.2 = Outcome.returned (Except.error Error.ErrIncorrectHash) →
          (s.UpdateMetrics lib st fs m).1 = st ∧ (s.UpdateMetrics lib st fs m).2.1 = fs) ∧
        (s.Key = "" →
          (s.UpdateMetrics lib st fs m).1 =
            (s.Repo.UpdateCounterMetrics st m.ID (FormatInt d)).1)) ∧
      (∀ x, m.MType = "gauge" → m.Value = some x →
        ((s.UpdateMetrics lib st fs m).2.2 = Outcome.returned (Except.error Error.ErrIncorrectHash) ↔
          s.Key ≠ "" ∧
            m.Hash ≠ lib.HmacSHA256Hex s.Key (m.ID ++ ":gauge:" ++ lib.FormatF x)) ∧
        ((s.UpdateMetrics lib st fs m).2.2 = Outcome.returned (Except.error Error.ErrIncorrectHash) →
          (s.UpdateMetrics lib st fs m).1 = st ∧ (s.UpdateMetrics lib st fs m).2.1 = fs) ∧
        (s.Key = "" →
          (s.UpdateMetrics lib st fs m).1 =
            (s.Repo.UpdateGaugeMetrics st m.ID (lib.FormatV x)).1)) := by
  constructor
  · intro d hk hd
    by_cases hbad : s.Key ≠ "" ∧ hash lib (m.ID ++ ":counter:" ++ FormatInt d) s.Key ≠ m.Hash
    · have hres : s.UpdateMetrics lib st fs m =
          (st, fs, Outcome.returned (Except.error Error.ErrIncorrectHash)) := by
        simp only [UpdateMetrics, hk, hd, if_true, hbad, ne_eq, not_false_eq_true, and_self]
      rw [hres]
      refine ⟨?_, ?_, ?_⟩
      · simp only [true_iff]
        exact ⟨hbad.1, fun h => hbad.2 (by rw [h]; rfl)⟩
      · intro _; exact ⟨rfl, rfl⟩
      · intro hkey; exact absurd hkey hbad.1
    · have hres : s.UpdateMetrics lib st fs m =
          (match s.Repo.UpdateCounterMetrics st m.ID (FormatInt d) with
            | (st1, Except.error _) =>
              (st1, fs, Outcome.returned (Except.error Error.ErrUnableUpdateCounter))
            | (st1, Except.ok v) => syncAndReturn s st1 fs { m with Delta := some v }) := by
        simp only [UpdateMetrics, hk, hd, if_true, hbad, if_false]
      have hne : (s.UpdateMetrics lib st fs m).2.2 ≠
          Outcome.returned (Except.error Error.ErrIncorrectHash) := by
        rw [hres]
        rcases s.Repo.UpdateCounterMetrics st m.ID (FormatInt d) with ⟨st1, r⟩
        cases r with
        | error e => simp
        | ok v => exact syncAndReturn_ne_error _ _ _ _ _
      have hfst : (s.UpdateMetrics lib st fs m).1 =
          (s.Repo.UpdateCounterMetrics st m.ID (FormatInt d)).1 := by
        rw [hres]
        rcases s.Repo.UpdateCounterMetrics st m.ID (FormatInt d) with ⟨st1, r⟩
        cases r with
        | error e => rfl
        | ok v => exact syncAndReturn_fst _ _ _ _
      refine ⟨?_, ?_, ?_⟩
      · constructor
        · intro h; exact absurd h hne
        · rintro ⟨h1, h2⟩
          exact absurd ⟨h1, fun h => h2 (by rw [← h]; rfl)⟩ hbad
      · intro h; exact absurd h hne
      · intro _; exact hfst
  · intro x hk hv
    have hnc : ¬ ("gauge" : String) = "counter" := by decide
    by_cases hbad : s.Key ≠ "" ∧ hash lib (m.ID ++ ":gauge:" ++ lib.FormatF x) s.Key ≠ m.Hash
    · have hres : s.UpdateMetrics lib st fs m =
          (st, fs, Outcome.returned (Except.error Error.ErrIncorrectHash)) := by
        simp only [UpdateMetrics, hk, hnc, if_false, hv, if_true, hbad, ne_eq,
          not_false_eq_true, and_self]
      rw [hres]
      refine ⟨?_, ?_, ?_⟩
      · simp only [true_iff]
        exact ⟨hbad.1, fun h => hbad.2 (by rw [h]; rfl)⟩
      · intro _; exact ⟨rfl, rfl⟩
      · intro hkey; exact absurd hkey hbad.1
    · have hres : s.UpdateMetrics lib st fs m =
          (match s.Repo.UpdateGaugeMetrics st m.ID (lib.FormatV x) with
            | (st1, some _) =>
              (st1, fs, Outcome.returned (Except.error Error.ErrUnableUpdateGauge))
            | (st1, none) => syncAndReturn s st1 fs m) := by
        simp only [UpdateMetrics, hk, hnc, hv, if_true, hbad, if_false]
      have hne : (s.UpdateMetrics lib st fs m).2.2 ≠
          Outcome.returned (Except.error Error.ErrIncorrectHash) := by
        rw [hres]
        rcases s.Repo.UpdateGaugeMetrics st m.ID (lib.FormatV x) with ⟨st1, r⟩
        cases r with
        | some e => simp
        | none => exact syncAndReturn_ne_error _ _ _ _ _
      have hfst : (s.UpdateMetrics lib st fs m).1 =
          (s.Repo.UpdateGaugeMetrics st m.ID (lib.FormatV x)).1 := by
        rw [hres]
        rcases s.Repo.UpdateGaugeMetrics st m.ID (lib.FormatV x) with ⟨st1, r⟩
        cases r with
        | some e => rfl
        | none => exact syncAndReturn_fst _ _ _ _
      refine ⟨?_, ?_, ?_⟩
      · constructor
        · intro h; exact absurd h hne
        · rintro ⟨h1, h2⟩
          exact absurd ⟨h1, fun h => h2 (by rw [← h]; rfl)⟩ hbad
      · intro h; exact absurd h hne
      · intro _; exact hfst

/-- Witness of `signature_check`: with the key `k`, a counter of delta 5
whose field `hash` is `bad` is rejected with `ErrIncorrectHash`, store and
file unchanged; with the empty key the same metric reaches the store. -/
theorem signature_check_witness :
    (UpdateMetrics sampleLib (sampleStorager "k") (MemStorage.NewRepository sampleLib) []
          { ID := "a", MType := "counter", Delta := some 5, Hash := "bad" }).2.2 =
        Outcome.returned (Except.error Error.ErrIncorrectHash) ∧
      ((UpdateMetrics sampleLib (sampleStorager "k") (MemStorage.NewRepository sampleLib) []
          { ID := "a", MType := "counter", Delta := some 5, Hash := "bad" }).1 =
          MemStorage.NewRepository sampleLib ∧
        (UpdateMetrics sampleLib (sampleStorager "k") (MemStorage.NewRepository sampleLib) []
          { ID := "a", MType := "counter", Delta := some 5, Hash := "bad" }).2.1 = []) ∧
      (UpdateMetrics sampleLib (sampleStorager "") (MemStorage.NewRepository sampleLib) []
          { ID := "a", MType := "counter", Delta := some 5, Hash := "bad" }).1 =
        ((sampleStorager "").Repo.UpdateCounterMetrics (MemStorage.NewRepository sampleLib)
          "a" (FormatInt 5)).1 :=
  have hbad := ((signature_check sampleLib (sampleStorager "k")
    (MemStorage.NewRepository sampleLib) []
    { ID := "a", MType := "counter", Delta := some 5, Hash := "bad" }).1 5 rfl rfl).1.2
    ⟨by decide, by decide⟩
  ⟨hbad,
    ((signature_check sampleLib (sampleStorager "k") (MemStorage.NewRepository sampleLib) []
      { ID := "a", MType := "counter", Delta := some 5, Hash := "bad" }).1 5 rfl rfl).2.1 hbad,
    ((signature_check sampleLib (sampleStorager "") (MemStorage.NewRepository sampleLib) []
      { ID := "a", MType := "counter", Delta := some 5, Hash := "bad" }).1 5 rfl rfl).2.2 rfl⟩

/-- Claim C10, counterexample. With no key and no file repository, a counter
that carries the delta 1 and also the value 1.5 is not rejected by
`UpdateMetrics` over the fresh memory store: the call returns the metric with
the new total, and the counter `a`, absent before, is stored with total 1. -/
theorem both_fields_accepted :
    (UpdateMetrics sampleLib (plainStorager "") (MemStorage.NewRepository sampleLib) ()
          { ID := "a", MType := "counter", Delta := some 1, Value := some SampleFloat.f1_5 }).2.2 =
        Outcome.returned (Except.ok
          { ID := "a", MType := "counter", Delta := some 1, Value := some SampleFloat.f1_5 }) ∧
      (UpdateMetrics sampleLib (plainStorager "") (MemStorage.NewRepository sampleLib) ()
          { ID := "a", MType := "counter", Delta := some 1,
            Value := some SampleFloat.f1_5 }).1.GetCounterMetrics "a" = Except.ok "1" ∧
      (MemStorage.NewRepository sampleLib).GetCounterMetrics "a" =
        Except.error (Error.counterNotFound "a") := by
  decide

/-- Claim C10 as amended. `UpdateMetrics` does not reject a metric for
carrying both a delta and a value. For kind counter the store ends in the same
state, and the call returns an error in the same cases and the same one, as
for the same metric without the value; for kind gauge, as for the same metric
without the delta; a metric of another kind is rejected with
`ErrUndefinedMetricType`, store and file unchanged. -/
theorem both_fields_dispatch_on_kind (lib : GoLib F) (s : Storager F σ φ) (st : σ) (fs : φ)
    (m : Metrics F) (d : Int) (x : F) (hd : m.Delta = some d) (hv : m.Value = some x) :
    (m.MType = "counter" →
        (s.UpdateMetrics lib st fs m).1 = (s.UpdateMetrics lib st fs { m with Value := none }).1 ∧
        ∀ e, (s.UpdateMetrics lib st fs m).2.2 = Outcome.returned (Except.error e) ↔
          (s.UpdateMetrics lib st fs { m with Value := none }).2.2 =
            Outcome.returned (Except.error e)) ∧
      (m.MType = "gauge" →
        (s.UpdateMetrics lib st fs m).1 = (s.UpdateMetrics lib st fs { m with Delta := none }).1 ∧
        ∀ e, (s.UpdateMetrics lib st fs m).2.2 = Outcome.returned (Except.error e) ↔
          (s.UpdateMetrics lib st fs { m with Delta := none }).2.2 =
            Outcome.returned (Except.error e)) ∧
      (m.MType ≠ "counter" → m.MType ≠ "gauge" →
        s.UpdateMetrics lib st fs m =
          (st, fs, Outcome.returned (Except.error Error.ErrUndefinedMetricType))) := by
  refine ⟨?_, ?_, ?_⟩
  · intro hk
    simp only [UpdateMetrics, hk, hd, if_true]
    split
    · exact ⟨rfl, fun e => Iff.rfl⟩
    · rcases s.Repo.UpdateCounterMetrics st m.ID (FormatInt d) with ⟨st1, r⟩
      cases r with
      | error e0 => exact ⟨rfl, fun e => Iff.rfl⟩
      | ok v =>
        simp only [syncAndReturn_fst, true_and]
        intro e
        constructor
        · intro h; exact absurd h (syncAndReturn_ne_error _ _ _ _ _)
        · intro h; exact absurd h (syncAndReturn_ne_error _ _ _ _ _)
  · intro hk
    have hnc : ¬ ("gauge" : String) = "counter" := by decide
    simp only [UpdateMetrics, hk, hnc, hv, if_true, if_false]
    split
    · exact ⟨rfl, fun e => Iff.rfl⟩
    · rcases s.Repo.UpdateGaugeMetrics st m.ID (lib.FormatV x) with ⟨st1, r⟩
      cases r with
      | some e0 => exact ⟨rfl, fun e => Iff.rfl⟩
      | none =>
        simp only [syncAndReturn_fst, true_and]
        intro e
        constructor
        · intro h; exact absurd h (syncAndReturn_ne_error _ _ _ _ _)
        · intro h; exact absurd h (syncAndReturn_ne_error _ _ _ _ _)
  · intro h1 h2
    simp [UpdateMetrics, h1, h2]

/-- Witness of `both_fields_dispatch_on_kind`: the counter of delta 1 that
also carries the value 1.5 leaves the fresh memory store in the state the same
counter without the value leaves it in. -/
theorem both_fields_dispatch_on_kind_witness :
    (UpdateMetrics sampleLib (plainStorager "") (MemStorage.NewRepository sampleLib) ()
        { ID := "a", MType := "counter", Delta := some 1, Value := some SampleFloat.f1_5 }).1 =
      (UpdateMetrics sampleLib (plainStorager "") (MemStorage.NewRepository sampleLib) ()
        { ID := "a", MType := "counter", Delta := some 1 }).1 :=
  ((both_fields_dispatch_on_kind sampleLib (plainStorager "")
    (MemStorage.NewRepository sampleLib) ()
    { ID := "a", MType := "counter", Delta := some 1, Value := some SampleFloat.f1_5 }
    1 SampleFloat.f1_5 rfl rfl).1 rfl).1

end Storager

/-! ## Relational store: batches -/

namespace PostgreRepo
variable {F τ : Type}

/-- Inside the transaction no path of the batch returns an error: the batch
commits, or returns nil after a rollback, or panics, or ends the process. -/
theorem execBatch_ne_error (db : SQLDB F τ) (committed : τ) (metrics : List (Metrics F))
    (e : Error) :
    ∀ work, (execBatch db committed work metrics).2 ≠ Outcome.returned (some e) := by
  induction metrics with
  | nil =>
    intro work
    unfold execBatch
    cases db.Commit <;> simp
  | cons v vs ih =>
    intro work
    unfold execBatch
    split
    · cases v.Value with
      | none => simp
      | some x =>
        simp only
        cases db.ExecGauge work v.ID v.MType x with
        | error e0 => cases db.Rollback <;> simp
        | ok w => exact ih w
    · split
      · cases v.Delta with
        | none => simp
        | some d =>
          simp only
          cases db.ExecCounter work v.ID v.MType d with
          | error e0 => cases db.Rollback <;> simp
          | ok w => exact ih w
      · exact ih work

/-- Claim C4, behaviour of the code at the failing input. On a working
connection, a batch of two well-formed entries followed by a gauge whose id
has 51 characters: the third statement fails, the transaction is rolled back,
the table is the one before the call, and the call returns nil, not an
error. -/
theorem relational_batch_failure_returns_nil :
    upsertGauge
        [{ metricID := "Alloc", type := "gauge", gauge := some SampleFloat.f1_5 },
         { metricID := "PollCount", type := "counter", counter := some 7 }]
        longID "gauge" SampleFloat.f2_75 =
        Except.error (Error.statement "value too long for type character varying") ∧
      UpdateBatchMetrics (pgTable SampleFloat) sampleTable
        [{ ID := "Alloc", MType := "gauge", Value := some SampleFloat.f1_5 },
         { ID := "PollCount", MType := "counter", Delta := some 7 },
         { ID := longID, MType := "gauge", Value := some SampleFloat.f2_75 }] =
        (sampleTable, Outcome.returned none) ∧
      UpdateBatchMetrics (pgTable SampleFloat) sampleTable
        [{ ID := "Alloc", MType := "gauge", Value := some SampleFloat.f1_5 },
         { ID := "PollCount", MType := "counter", Delta := some 7 }] =
        ([{ metricID := "Alloc", type := "gauge", gauge := some SampleFloat.f1_5 },
          { metricID := "PollCount", type := "counter", counter := some 7 }],
          Outcome.returned none) := by
  decide

end PostgreRepo

/-! ## Durability bridge: save then restore -/

namespace Filer
variable {F σ φ : Type}

theorem replay_cons_counter (lib : GoLib F) (repo : Storage F σ) (st : σ) (v : Metrics F)
    (vs : List (Metrics F)) (d : Int) (hk : v.MType = "counter") (hd : v.Delta = some d) :
    replay lib repo st (v :: vs) =
      replay lib repo (repo.UpdateCounterMetrics st v.ID (FormatInt d)).1 vs := by
  simp [replay, hk, hd]

theorem replay_cons_gauge (lib : GoLib F) (repo : Storage F σ) (st : σ) (v : Metrics F)
    (vs : List (Metrics F)) (x : F) (hk : v.MType = "gauge") (hv : v.Value = some x) :
    replay lib repo st (v :: vs) =
      replay lib repo (repo.UpdateGaugeMetrics st v.ID (lib.FormatV x)).1 vs := by
  simp [replay, hk, hv]

theorem counter_step (lib : GoLib F) (T : MemStorage F) (id : String) (d : Int)
    (h : inInt64 d = true) :
    ((MemStorage.asStorage lib).UpdateCounterMetrics T id (FormatInt d)).1 =
      ⟨T.GaugeMetrics,
        T.CounterMetrics.insert id (wrapInt64 ((T.CounterMetrics.lookup id).getD 0 + d))⟩ := by
  show (T.UpdateCounterMetrics id (FormatInt d)).1 = _
  rw [MemStorage.UpdateCounterMetrics_of_parse T id _ d (Atoi_FormatInt d h)]

theorem gauge_step (lib : GoLib F) (T : MemStorage F) (id : String) (x y : F)
    (h : lib.ParseFloat (lib.FormatV x) = some y) :
    ((MemStorage.asStorage lib).UpdateGaugeMetrics T id (lib.FormatV x)).1 =
      ⟨T.GaugeMetrics.insert id y, T.CounterMetrics⟩ := by
  show (T.UpdateGaugeMetrics lib id (lib.FormatV x)).1 = _
  simp [MemStorage.UpdateGaugeMetrics, h]

theorem replay_returns (lib : GoLib F) (repo : Storage F σ) :
    ∀ (L : List (Metrics F)) (st : σ), (∀ e ∈ L, savedRecord e) →
      (replay lib repo st L).2 = Outcome.returned () := by
  intro L
  induction L with
  | nil => intro st _; rfl
  | cons v vs ih =>
    intro st h
    have hv := h v (List.mem_cons_self _ _)
    have hvs : ∀ e ∈ vs, savedRecord e := fun e he => h e (List.mem_cons_of_mem _ he)
    rcases hv with ⟨hk, d, hd, _⟩ | ⟨hk, x, hx⟩
    · rw [replay_cons_counter lib repo st v vs d hk hd]
      exact ih _ hvs
    · rw [replay_cons_gauge lib repo st v vs x hk hx]
      exact ih _ hvs

theorem replay_counter (lib : GoLib F)
    (hrt : ∀ x, ∃ y, lib.ParseFloat (lib.FormatV x) = some y ∧ lib.FormatV y = lib.FormatV x)
    (id : String) :
    ∀ (L : List (Metrics F)) (T : MemStorage F) (c : Int), (∀ e ∈ L, savedRecord e) →
      (T.CounterMetrics.lookup id).getD 0 = wrapInt64 c →
      (((replay lib (MemStorage.asStorage lib) T L).1.CounterMetrics.lookup id).getD 0 =
          wrapInt64 (c + deltaSum id L)) ∧
        ((T.CounterMetrics.lookup id ≠ none ∨ ∃ e ∈ L, e.MType = "counter" ∧ e.ID = id) →
          (replay lib (MemStorage.asStorage lib) T L).1.CounterMetrics.lookup id ≠ none) := by
  intro L
  induction L with
  | nil =>
    intro T c _ hc
    refine ⟨by simp [replay, deltaSum, hc], ?_⟩
    rintro (h | ⟨e, he, _⟩)
    · exact h
    · cases he
  | cons v vs ih =>
    intro T c h hc
    have hv := h v (List.mem_cons_self _ _)
    have hvs : ∀ e ∈ vs, savedRecord e := fun e he => h e (List.mem_cons_of_mem _ he)
    rcases hv with ⟨hk, d, hd, hfit⟩ | ⟨hk, x, hx⟩
    · rw [replay_cons_counter lib _ T v vs d hk hd, counter_step lib T v.ID d hfit]
      by_cases hid : v.ID = id
      · have hc1 : ((AList.insert v.ID (wrapInt64 ((T.CounterMetrics.lookup v.ID).getD 0 + d))
            T.CounterMetrics).lookup id).getD 0 = wrapInt64 (c + d) := by
          rw [hid, AList.lookup_insert, hc, wrapInt64_wrap_add]; rfl
        obtain ⟨h1, h2⟩ := ih ⟨T.GaugeMetrics, AList.insert v.ID
          (wrapInt64 ((T.CounterMetrics.lookup v.ID).getD 0 + d)) T.CounterMetrics⟩ (c + d) hvs hc1
        refine ⟨?_, fun _ => h2 (Or.inl ?_)⟩
        · rw [h1]
          simp [deltaSum, hk, hid, hd, add_assoc]
        · show AList.lookup id (AList.insert v.ID _ T.CounterMetrics) ≠ none
          rw [hid, AList.lookup_insert]; simp
      · have hlk : (AList.insert v.ID (wrapInt64 ((T.CounterMetrics.lookup v.ID).getD 0 + d))
            T.CounterMetrics).lookup id = T.CounterMetrics.lookup id :=
          AList.lookup_insert_ne (fun h => hid h.symm)
        have hc1 : ((AList.insert v.ID (wrapInt64 ((T.CounterMetrics.lookup v.ID).getD 0 + d))
            T.CounterMetrics).lookup id).getD 0 = wrapInt64 c := by
          rw [hlk, hc]
        obtain ⟨h1, h2⟩ := ih ⟨T.GaugeMetrics, AList.insert v.ID
          (wrapInt64 ((T.CounterMetrics.lookup v.ID).getD 0 + d)) T.CounterMetrics⟩ c hvs hc1
        refine ⟨?_, ?_⟩
        · rw [h1]
          simp [deltaSum, hid]
        · rintro (h0 | ⟨e, he, hek, heid⟩)
          · exact h2 (Or.inl (by show AList.lookup id (AList.insert v.ID _ _) ≠ none; rw [hlk]; exact h0))
          · rcases List.mem_cons.1 he with rfl | he
            · exact absurd heid hid
            · exact h2 (Or.inr ⟨e, he, hek, heid⟩)
    · obtain ⟨y, hy, _⟩ := hrt x
      rw [replay_cons_gauge lib _ T v vs x hk hx, gauge_step lib T v.ID x y hy]
      obtain ⟨h1, h2⟩ := ih ⟨T.GaugeMetrics.insert v.ID y, T.CounterMetrics⟩ c hvs hc
      have hnc : ¬ ("gauge" : String) = "counter" := by decide
      refine ⟨?_, ?_⟩
      · rw [h1]
        simp [deltaSum, hk]
      · rintro (h0 | ⟨e, he, hek, heid⟩)
        · exact h2 (Or.inl h0)
        · rcases List.mem_cons.1 he with rfl | he
          · rw [hk] at hek; exact absurd hek hnc
          · exact h2 (Or.inr ⟨e, he, hek, heid⟩)

theorem replay_gauge (lib : GoLib F)
    (hrt : ∀ x, ∃ y, lib.ParseFloat (lib.FormatV x) = some y ∧ lib.FormatV y = lib.FormatV x)
    (id : String) (x : F) :
    ∀ (L : List (Metrics F)) (T : MemStorage F), (∀ e ∈ L, savedRecord e) →
      (∀ e ∈ L, e.MType = "gauge" → e.ID = id → e.Value = some x) →
      ((∃ y, T.GaugeMetrics.lookup id = some y ∧ lib.FormatV y = lib.FormatV x) ∨
        ∃ e ∈ L, e.MType = "gauge" ∧ e.ID = id) →
      ∃ y, (replay lib (MemStorage.asStorage lib) T L).1.GaugeMetrics.lookup id = some y ∧
        lib.FormatV y = lib.FormatV x := by
  intro L
  induction L with
  | nil =>
    intro T _ _ h
    rcases h with h | ⟨e, he, _⟩
    · exact h
    · cases he
  | cons v vs ih =>
    intro T h hval hex
    have hv := h v (List.mem_cons_self _ _)
    have hvs : ∀ e ∈ vs, savedRecord e := fun e he => h e (List.mem_cons_of_mem _ he)
    have hvals : ∀ e ∈ vs, e.MType = "gauge" → e.ID = id → e.Value = some x :=
      fun e he => hval e (List.mem_cons_of_mem _ he)
    have hnc : ¬ ("gauge" : String) = "counter" := by decide
    rcases hv with ⟨hk, d, hd, hfit⟩ | ⟨hk, x1, hx1⟩
    · rw [replay_cons_counter lib _ T v vs d hk hd, counter_step lib T v.ID d hfit]
      apply ih _ hvs hvals
      rcases hex with h0 | ⟨e, he, hek, heid⟩
      · exact Or.inl h0
      · rcases List.mem_cons.1 he with rfl | he
        · rw [hk] at hek; exact absurd hek.symm hnc
        · exact Or.inr ⟨e, he, hek, heid⟩
    · obtain ⟨y, hy, hfy⟩ := hrt x1
      rw [replay_cons_gauge lib _ T v vs x1 hk hx1, gauge_step lib T v.ID x1 y hy]
      apply ih _ hvs hvals
      by_cases hid : v.ID = id
      · left
        have hxx : x1 = x := by
          have := hval v (List.mem_cons_self _ _) hk hid
          rw [hx1] at this
          exact Option.some.inj this
        refine ⟨y, ?_, ?_⟩
        · show AList.lookup id (AList.insert v.ID y T.GaugeMetrics) = some y
          rw [hid, AList.lookup_insert]
        · rw [hfy, hxx]
      · have hlk : (AList.insert v.ID y T.GaugeMetrics).lookup id = T.GaugeMetrics.lookup id :=
          AList.lookup_insert_ne (fun h => hid h.symm)
        rcases hex with ⟨y0, h0, hf0⟩ | ⟨e, he, hek, heid⟩
        · left
          exact ⟨y0, by show AList.lookup id (AList.insert v.ID y T.GaugeMetrics) = some y0; rw [hlk, h0], hf0⟩
        · rcases List.mem_cons.1 he with rfl | he
          · exact absurd heid hid
          · exact Or.inr ⟨e, he, hek, heid⟩

theorem deltaSum_perm {l1 l2 : List (Metrics F)} (id : String) (h : l1.Perm l2) :
    deltaSum id l1 = deltaSum id l2 := by
  unfold deltaSum
  exact (h.map _).sum_eq

theorem deltaSum_append (id : String) (l1 l2 : List (Metrics F)) :
    deltaSum id (l1 ++ l2) = deltaSum id l1 + deltaSum id l2 := by
  simp [deltaSum]

theorem deltaSum_gauges (id : String) (T : MemStorage F) :
    deltaSum id T.GetAllGaugeMetrics = 0 := by
  unfold deltaSum MemStorage.GetAllGaugeMetrics
  apply List.sum_eq_zero
  intro z hz
  simp only [List.map_map, List.mem_map, Function.comp] at hz
  obtain ⟨e, _, rfl⟩ := hz
  have hnc : ¬ ("gauge" : String) = "counter" := by decide
  simp [hnc]

theorem deltaSum_entries (id : String) :
    ∀ (l : List (Sigma (fun _ : String => Int))), l.NodupKeys →
      (l.map (fun e : Sigma (fun _ : String => Int) =>
        if e.1 = id then e.2 else 0)).sum = (List.dlookup id l).getD 0 := by
  intro l
  induction l with
  | nil => intro _; rfl
  | cons e es ih =>
    intro hnd
    obtain ⟨hnot, hes⟩ := List.nodupKeys_cons.1 hnd
    obtain ⟨k, v⟩ := e
    by_cases hk : k = id
    · subst hk
      have hnone : List.dlookup k es = none := List.dlookup_eq_none.2 hnot
      simp [List.dlookup_cons_eq, ih hes, hnone]
    · have hne : id ≠ (⟨k, v⟩ : Sigma (fun _ : String => Int)).1 := fun h => hk h.symm
      rw [List.dlookup_cons_ne es ⟨k, v⟩ hne]
      simp [hk, ih hes]

theorem deltaSum_counters (id : String) (T : MemStorage F) :
    deltaSum id T.GetAllCounterMetrics = (T.CounterMetrics.lookup id).getD 0 := by
  have h := deltaSum_entries id T.CounterMetrics.entries T.CounterMetrics.nodupKeys
  unfold deltaSum MemStorage.GetAllCounterMetrics
  simp only [List.map_map, Function.comp_def, true_and, Option.getD_some]
  exact h

theorem mem_GetAllCounterMetrics (T : MemStorage F) (e : Metrics F) :
    e ∈ T.GetAllCounterMetrics ↔
      ∃ k v, T.CounterMetrics.lookup k = some v ∧
        e = { ID := k, MType := "counter", Delta := some v } := by
  unfold MemStorage.GetAllCounterMetrics
  simp only [List.mem_map]
  constructor
  · rintro ⟨⟨k, v⟩, hmem, rfl⟩
    exact ⟨k, v, AList.mem_lookup_iff.2 hmem, rfl⟩
  · rintro ⟨k, v, hlk, rfl⟩
    exact ⟨⟨k, v⟩, AList.mem_lookup_iff.1 hlk, rfl⟩

theorem mem_GetAllGaugeMetrics (T : MemStorage F) (e : Metrics F) :
    e ∈ T.GetAllGaugeMetrics ↔
      ∃ k x, T.GaugeMetrics.lookup k = some x ∧
        e = { ID := k, MType := "gauge", Value := some x } := by
  unfold MemStorage.GetAllGaugeMetrics
  simp only [List.mem_map]
  constructor
  · rintro ⟨⟨k, v⟩, hmem, rfl⟩
    exact ⟨k, v, AList.mem_lookup_iff.2 hmem, rfl⟩
  · rintro ⟨k, v, hlk, rfl⟩
    exact ⟨⟨k, v⟩, AList.mem_lookup_iff.1 hlk, rfl⟩

theorem NewRepository_counter (lib : GoLib F) (id : String) :
    ((MemStorage.NewRepository lib).CounterMetrics.lookup id).getD 0 = wrapInt64 0 := by
  show ((AList.insert "PollCount" (0 : Int) (∅ : GoMap Int)).lookup id).getD 0 = 0
  by_cases h : id = "PollCount"
  · rw [h, AList.lookup_insert]; rfl
  · rw [AList.lookup_insert_ne h, AList.lookup_empty]; rfl

/-- Claim C7. Let the file repository give back, in any order, the list it
was given to save, let the floats survive their `%v` text (parsing the text
of `x` gives a float with the text of `x`), and let the counters of the store
`S` be within `int64`. Then `Save` on `S` followed by `Load` into the store
built by `NewRepository` returns, and in the restored store every gauge id of
`S` reads as in `S` and every counter id of `S` reads the same total as in
`S`. -/
theorem save_restore_round_trip (lib : GoLib F)
    (hrt : ∀ x, ∃ y, lib.ParseFloat (lib.FormatV x) = some y ∧ lib.FormatV y = lib.FormatV x)
    (f : Filer F (MemStorage F) φ) (hrepo : f.Repo = MemStorage.asStorage lib)
    (hfile : ∀ fs l, ((f.FileRepo.LoadFromDisk (f.FileRepo.SaveAllToDisk fs l).1).2.1).Perm l)
    (S : MemStorage F)
    (hS : ∀ id v, S.CounterMetrics.lookup id = some v → inInt64 v = true) (fs : φ) :
    (f.Load lib (MemStorage.NewRepository lib) (f.Save S fs).1).2.2 = Outcome.returned () ∧
      (∀ id, S.GaugeMetrics.lookup id ≠ none →
        (f.Load lib (MemStorage.NewRepository lib) (f.Save S fs).1).1.GetGaugeMetrics lib id =
          S.GetGaugeMetrics lib id) ∧
      (∀ id, S.CounterMetrics.lookup id ≠ none →
        (f.Load lib (MemStorage.NewRepository lib) (f.Save S fs).1).1.GetCounterMetrics id =
          S.GetCounterMetrics id) := by
  have hsave : (f.Save S fs).1 =
      (f.FileRepo.SaveAllToDisk fs (S.GetAllCounterMetrics ++ S.GetAllGaugeMetrics)).1 := by
    unfold Save
    rw [hrepo]
    show (match f.FileRepo.SaveAllToDisk fs (S.GetAllCounterMetrics ++ S.GetAllGaugeMetrics) with
      | (fs1, some err) => (fs1, some err)
      | (fs1, none) => (fs1, none)).1 = _
    rcases f.FileRepo.SaveAllToDisk fs (S.GetAllCounterMetrics ++ S.GetAllGaugeMetrics)
      with ⟨fs1, r⟩
    cases r <;> rfl
  have hperm := hfile fs (S.GetAllCounterMetrics ++ S.GetAllGaugeMetrics)
  rw [← hsave] at hperm
  have hload : ∀ T : MemStorage F,
      (f.Load lib T (f.Save S fs).1).1 =
        (replay lib (MemStorage.asStorage lib) T
          (f.FileRepo.LoadFromDisk (f.Save S fs).1).2.1).1 ∧
      (f.Load lib T (f.Save S fs).1).2.2 =
        (replay lib (MemStorage.asStorage lib) T
          (f.FileRepo.LoadFromDisk (f.Save S fs).1).2.1).2 := by
    intro T
    unfold Load
    rw [hrepo]
    exact ⟨rfl, rfl⟩
  generalize (f.FileRepo.LoadFromDisk (f.Save S fs).1).2.1 = L at hperm hload
  have hall : ∀ e ∈ L, savedRecord e := by
    intro e he
    rcases List.mem_append.1 ((hperm.mem_iff).1 he) with hc | hg
    · obtain ⟨k, v, hlk, rfl⟩ := (mem_GetAllCounterMetrics S e).1 hc
      exact Or.inl ⟨rfl, v, rfl, hS k v hlk⟩
    · obtain ⟨k, x, _, rfl⟩ := (mem_GetAllGaugeMetrics S e).1 hg
      exact Or.inr ⟨rfl, x, rfl⟩
  have hnc : ¬ ("gauge" : String) = "counter" := by decide
  obtain ⟨hst, hout⟩ := hload (MemStorage.NewRepository lib)
  refine ⟨?_, ?_, ?_⟩
  · rw [hout]
    exact replay_returns lib _ L _ hall
  · intro id hid
    rw [hst]
    obtain ⟨x, hx⟩ := Option.ne_none_iff_exists'.1 hid
    have hvals : ∀ e ∈ L, e.MType = "gauge" → e.ID = id → e.Value = some x := by
      intro e he hk heid
      rcases List.mem_append.1 ((hperm.mem_iff).1 he) with hc | hg
      · obtain ⟨k, v, _, rfl⟩ := (mem_GetAllCounterMetrics S e).1 hc
        exact absurd hk.symm hnc
      · obtain ⟨k, x1, hlk, rfl⟩ := (mem_GetAllGaugeMetrics S e).1 hg
        have hk1 : k = id := heid
        rw [hk1, hx] at hlk
        rw [← Option.some.inj hlk]
    have hex : ∃ e ∈ L, e.MType = "gauge" ∧ e.ID = id :=
      ⟨{ ID := id, MType := "gauge", Value := some x },
        (hperm.mem_iff).2 (List.mem_append.2
          (Or.inr ((mem_GetAllGaugeMetrics S _).2 ⟨id, x, hx, rfl⟩))), rfl, rfl⟩
    obtain ⟨y, hy, hfy⟩ := replay_gauge lib hrt id x L (MemStorage.NewRepository lib) hall hvals
      (Or.inr hex)
    simp [MemStorage.GetGaugeMetrics, hy, hx, hfy]
  · intro id hid
    rw [hst]
    obtain ⟨v, hv⟩ := Option.ne_none_iff_exists'.1 hid
    have hex : ∃ e ∈ L, e.MType = "counter" ∧ e.ID = id :=
      ⟨{ ID := id, MType := "counter", Delta := some v },
        (hperm.mem_iff).2 (List.mem_append.2
          (Or.inl ((mem_GetAllCounterMetrics S _).2 ⟨id, v, hv, rfl⟩))), rfl, rfl⟩
    obtain ⟨h1, h2⟩ := replay_counter lib hrt id L (MemStorage.NewRepository lib) 0 hall
      (NewRepository_counter lib id)
    have hsum : deltaSum id L = v := by
      rw [deltaSum_perm id hperm, deltaSum_append, deltaSum_gauges, deltaSum_counters, hv]
      simp
    rw [hsum, zero_add, wrapInt64_of_fits v (hS id v hv)] at h1
    obtain ⟨w, hw⟩ := Option.ne_none_iff_exists'.1 (h2 (Or.inr hex))
    rw [hw] at h1
    simp only [Option.getD_some] at h1
    simp [MemStorage.GetCounterMetrics, hw, hv, h1]

/-- Witness of `save_restore_round_trip`: the store with gauge `Temp` at 2.75
and counter `Requests` at 8, saved to `listFile` and restored into the fresh
store, reads `2.75` and `8`. -/
theorem save_restore_round_trip_witness :
    (sampleFiler.Load sampleLib (MemStorage.NewRepository sampleLib)
        (sampleFiler.Save sampleStore []).1).2.2 = Outcome.returned () ∧
      (sampleFiler.Load sampleLib (MemStorage.NewRepository sampleLib)
        (sampleFiler.Save sampleStore []).1).1.GetGaugeMetrics sampleLib "Temp" =
        Except.ok "2.75" ∧
      (sampleFiler.Load sampleLib (MemStorage.NewRepository sampleLib)
        (sampleFiler.Save sampleStore []).1).1.GetCounterMetrics "Requests" =
        Except.ok "8" := by
  have h := save_restore_round_trip sampleLib
    (fun x => by cases x <;> exact ⟨_, rfl, rfl⟩)
    sampleFiler rfl (fun _ l => List.Perm.refl l) sampleStore
    (by
      intro id v hv
      have hv1 : ((∅ : GoMap Int).insert "Requests" 8).lookup id = some v := hv
      by_cases hid : id = "Requests"
      · rw [hid, AList.lookup_insert] at hv1
        rw [← Option.some.inj hv1]; decide
      · rw [AList.lookup_insert_ne hid, AList.lookup_empty] at hv1
        cases hv1)
    []
  refine ⟨h.1, ?_, ?_⟩
  · rw [h.2.1 "Temp" (by decide)]; decide
  · rw [h.2.2 "Requests" (by decide)]; decide

end Filer

/-! ## Memory store: reads and namespaces -/

namespace MemStorage
variable {F : Type}

/-- Claim C11. `GetGaugeMetrics(id)` returns an error exactly when `id` is
absent from the gauge namespace, `GetCounterMetrics(id)` exactly when `id` is
absent from the counter namespace; the state after either call is the state
before; and `Storager.GetMetric` reports an error of the store's read, for
either kind and every store, as `ErrMetricNotFound`, in particular for an id
absent from the memory store. -/
theorem not_found_iff_absent (lib : GoLib F) (m : MemStorage F) (id : String) :
    ((∃ e, m.GetGaugeMetrics lib id = Except.error e) ↔ m.GaugeMetrics.lookup id = none) ∧
      ((∃ e, m.GetCounterMetrics id = Except.error e) ↔ m.CounterMetrics.lookup id = none) ∧
      (m.getGaugeCall lib id).1 = m ∧ (m.getCounterCall id).1 = m ∧
      (∀ (σ φ : Type) (s : Storager F σ φ) (st : σ) (q : Metrics F) (e : Error),
        (q.MType = "counter" → s.Repo.GetCounterMetrics st q.ID = Except.error e →
          s.GetMetric lib st q = Except.error Error.ErrMetricNotFound) ∧
        (q.MType = "gauge" → s.Repo.GetGaugeMetrics st q.ID = Except.error e →
          s.GetMetric lib st q = Except.error Error.ErrMetricNotFound)) ∧
      (∀ (φ : Type) (s : Storager F (MemStorage F) φ) (q : Metrics F),
        s.Repo = asStorage lib → q.ID = id →
        (q.MType = "counter" → m.CounterMetrics.lookup id = none →
          s.GetMetric lib m q = Except.error Error.ErrMetricNotFound) ∧
        (q.MType = "gauge" → m.GaugeMetrics.lookup id = none →
          s.GetMetric lib m q = Except.error Error.ErrMetricNotFound)) := by
  have hgc : ¬ ("gauge" : String) = "counter" := by decide
  refine ⟨?_, ?_, rfl, rfl, ?_, ?_⟩
  · unfold GetGaugeMetrics
    cases h : m.GaugeMetrics.lookup id <;> simp
  · unfold GetCounterMetrics
    cases h : m.CounterMetrics.lookup id <;> simp
  · intro σ φ s st q e
    constructor
    · intro hk hr
      simp [Storager.GetMetric, hk, hr]
    · intro hk hr
      simp [Storager.GetMetric, hk, hgc, hr]
  · intro φ s q hrepo hid
    constructor
    · intro hk habs
      simp [Storager.GetMetric, hk, hrepo, asStorage, GetCounterMetrics, hid, habs]
    · intro hk habs
      simp [Storager.GetMetric, hk, hgc, hrepo, asStorage, GetGaugeMetrics, hid, habs]

/-- Witness of `not_found_iff_absent`: in the fresh store the id `Requests`
is in neither namespace, both reads fail, and `GetMetric` answers
`ErrMetricNotFound` for both kinds. -/
theorem not_found_iff_absent_witness :
    (∃ e, (NewRepository sampleLib).GetGaugeMetrics sampleLib "Requests" = Except.error e) ∧
      (∃ e, (NewRepository sampleLib).GetCounterMetrics "Requests" = Except.error e) ∧
      (plainStorager "").GetMetric sampleLib (NewRepository sampleLib)
        { ID := "Requests", MType := "counter" } = Except.error Error.ErrMetricNotFound ∧
      (plainStorager "").GetMetric sampleLib (NewRepository sampleLib)
        { ID := "Requests", MType := "gauge" } = Except.error Error.ErrMetricNotFound :=
  ⟨(not_found_iff_absent sampleLib (NewRepository sampleLib) "Requests").1.2 (by decide),
    (not_found_iff_absent sampleLib (NewRepository sampleLib) "Requests").2.1.2 (by decide),
    ((not_found_iff_absent sampleLib (NewRepository sampleLib) "Requests").2.2.2.2.2
      Unit (plainStorager "") { ID := "Requests", MType := "counter" } rfl rfl).1 rfl
      (by decide),
    ((not_found_iff_absent sampleLib (NewRepository sampleLib) "Requests").2.2.2.2.2
      Unit (plainStorager "") { ID := "Requests", MType := "gauge" } rfl rfl).2 rfl
      (by decide)⟩

/-- Claim C12. `UpdateGaugeMetrics` leaves the counter namespace as it is and
`UpdateCounterMetrics` leaves the gauge namespace as it is, for every id and
text; and after writing the gauge value `v` and the counter delta `d` under
one id, in either order, `GetGaugeMetrics(id)` returns the text of `v` and
`GetCounterMetrics(id)` the text of the previous total plus `d`. -/
theorem namespaces_independent (lib : GoLib F) (m : MemStorage F) (id rawG rawC : String) :
    (m.UpdateGaugeMetrics lib id rawG).1.CounterMetrics = m.CounterMetrics ∧
      (m.UpdateCounterMetrics id rawC).1.GaugeMetrics = m.GaugeMetrics ∧
      (∀ v d, lib.ParseFloat rawG = some v → Atoi rawC = some d →
        (((m.UpdateGaugeMetrics lib id rawG).1.UpdateCounterMetrics id rawC).1.GetGaugeMetrics
            lib id = Except.ok (lib.FormatV v) ∧
          ((m.UpdateGaugeMetrics lib id rawG).1.UpdateCounterMetrics id rawC).1.GetCounterMetrics
            id = Except.ok (FormatInt (wrapInt64 ((m.CounterMetrics.lookup id).getD 0 + d)))) ∧
        (((m.UpdateCounterMetrics id rawC).1.UpdateGaugeMetrics lib id rawG).1.GetGaugeMetrics
            lib id = Except.ok (lib.FormatV v) ∧
          ((m.UpdateCounterMetrics id rawC).1.UpdateGaugeMetrics lib id rawG).1.GetCounterMetrics
            id = Except.ok (FormatInt (wrapInt64 ((m.CounterMetrics.lookup id).getD 0 + d))))) := by
  refine ⟨?_, ?_, ?_⟩
  · unfold UpdateGaugeMetrics
    cases lib.ParseFloat rawG <;> rfl
  · unfold UpdateCounterMetrics
    cases Atoi rawC with
    | none => rfl
    | some g => simp
  · intro v d hv hd
    simp [UpdateGaugeMetrics, UpdateCounterMetrics, GetGaugeMetrics, GetCounterMetrics, hv, hd]

/-- Witness of `namespaces_independent`: on the store holding the counter
`Requests` at 8, the gauge 1.5 and the delta 3 written under `Requests` read
back as `1.5` and `11`. -/
theorem namespaces_independent_witness :
    ((sampleStore.UpdateGaugeMetrics sampleLib "Requests" "1.5").1.UpdateCounterMetrics
        "Requests" "3").1.GetGaugeMetrics sampleLib "Requests" = Except.ok "1.5" ∧
      ((sampleStore.UpdateGaugeMetrics sampleLib "Requests" "1.5").1.UpdateCounterMetrics
        "Requests" "3").1.GetCounterMetrics "Requests" = Except.ok "11" := by
  have h := ((namespaces_independent sampleLib sampleStore "Requests" "1.5" "3").2.2
    SampleFloat.f1_5 3 (by decide) (by decide)).1
  refine ⟨h.1, ?_⟩
  rw [h.2]; decide

end MemStorage

/-! ## Store boundary: read after write -/

namespace Storager
variable {F σ φ : Type}

/-- When the tail of `UpdateMetrics` returns a metric, it is the metric it
was given. -/
theorem syncAndReturn_ok (s : Storager F σ φ) (st : σ) (fs : φ) (m r : Metrics F)
    (h : (s.syncAndReturn st fs m).2.2 = Outcome.returned (Except.ok r)) : r = m := by
  unfold syncAndReturn at h
  cases hf : s.FileRepo with
  | none =>
    rw [hf] at h
    simp only [Outcome.returned.injEq, Except.ok.injEq] at h
    exact h.symm
  | some fr =>
    rw [hf] at h
    simp only at h
    split at h
    · rcases hs : fr.SaveToDisk fs m with ⟨fs1, o⟩
      rw [hs] at h
      cases o <;> simp at h
      exact h.symm
    · simp only [Outcome.returned.injEq, Except.ok.injEq] at h
      exact h.symm
    · simp at h
    · simp at h

/-- Over the memory store with no key, the update of a counter whose delta
text parses to `g` is the insertion of the new total followed by the tail. -/
theorem UpdateMetrics_counter_mem (lib : GoLib F) (s : Storager F (MemStorage F) φ)
    (hrepo : s.Repo = MemStorage.asStorage lib) (hkey : s.Key = "") (st : MemStorage F)
    (fs : φ) (q : Metrics F) (d g : Int) (hk : q.MType = "counter") (hd : q.Delta = some d)
    (hg : Atoi (FormatInt d) = some g) :
    s.UpdateMetrics lib st fs q =
      s.syncAndReturn
        ⟨st.GaugeMetrics, st.CounterMetrics.insert q.ID
          (wrapInt64 ((st.CounterMetrics.lookup q.ID).getD 0 + g))⟩ fs
        { q with Delta := some (wrapInt64 ((st.CounterMetrics.lookup q.ID).getD 0 + g)) } := by
  have hstep := MemStorage.UpdateCounterMetrics_of_parse st q.ID (FormatInt d) g hg
  have hstep2 : s.Repo.UpdateCounterMetrics st q.ID (FormatInt d) =
      (⟨st.GaugeMetrics, st.CounterMetrics.insert q.ID
          (wrapInt64 ((st.CounterMetrics.lookup q.ID).getD 0 + g))⟩,
        Except.ok (wrapInt64 ((st.CounterMetrics.lookup q.ID).getD 0 + g))) := by
    rw [hrepo]; exact hstep
  simp only [UpdateMetrics, hk, hd, if_true, hkey, ne_eq, not_true_eq_false, false_and,
    if_false, hstep2]

/-- Over the memory store with no key, the update of a gauge whose value text
parses to `y` is the insertion of `y` followed by the tail. -/
theorem UpdateMetrics_gauge_mem (lib : GoLib F) (s : Storager F (MemStorage F) φ)
    (hrepo : s.Repo = MemStorage.asStorage lib) (hkey : s.Key = "") (st : MemStorage F)
    (fs : φ) (q : Metrics F) (v y : F) (hk : q.MType = "gauge") (hv : q.Value = some v)
    (hy : lib.ParseFloat (lib.FormatV v) = some y) :
    s.UpdateMetrics lib st fs q =
      s.syncAndReturn ⟨st.GaugeMetrics.insert q.ID y, st.CounterMetrics⟩ fs q := by
  have hgc : ¬ ("gauge" : String) = "counter" := by decide
  have hstep2 : s.Repo.UpdateGaugeMetrics st q.ID (lib.FormatV v) =
      (⟨st.GaugeMetrics.insert q.ID y, st.CounterMetrics⟩, none) := by
    rw [hrepo]
    show st.UpdateGaugeMetrics lib q.ID (lib.FormatV v) = _
    simp [MemStorage.UpdateGaugeMetrics, hy]
  simp only [UpdateMetrics, hk, hgc, hv, if_true, hkey, ne_eq, not_true_eq_false, false_and,
    if_false, hstep2]

end Storager

namespace Storager
variable {F σ φ : Type}

/-- Claim C13. Over the memory store with no key, when `UpdateMetrics`
returns a metric for a counter, the returned metric carries the total now
stored (the previous total plus the delta, in 64 bits) and `GetMetric` for the
same id and kind returns that total as delta; when it returns for a gauge of
value `v` whose `%v` text parses back to `v`, `GetMetric` for the same id and
kind returns `v` as value. -/
theorem read_after_write (lib : GoLib F) (s : Storager F (MemStorage F) φ)
    (hrepo : s.Repo = MemStorage.asStorage lib) (hkey : s.Key = "") (st : MemStorage F)
    (fs : φ) (q r : Metrics F)
    (hok : (s.UpdateMetrics lib st fs q).2.2 = Outcome.returned (Except.ok r)) :
    (q.MType = "counter" →
        ∃ t, r.Delta = some t ∧
          (∀ d, q.Delta = some d → inInt64 d = true →
            t = wrapInt64 ((st.CounterMetrics.lookup q.ID).getD 0 + d)) ∧
          ∀ q1 : Metrics F, q1.ID = q.ID → q1.MType = "counter" →
            s.GetMetric lib (s.UpdateMetrics lib st fs q).1 q1 =
              Except.ok { q1 with Delta := some t }) ∧
      (q.MType = "gauge" → ∀ v, q.Value = some v → lib.ParseFloat (lib.FormatV v) = some v →
        ∀ q1 : Metrics F, q1.ID = q.ID → q1.MType = "gauge" →
          s.GetMetric lib (s.UpdateMetrics lib st fs q).1 q1 =
            Except.ok { q1 with Value := some v }) := by
  have hgc : ¬ ("gauge" : String) = "counter" := by decide
  constructor
  · intro hk
    cases hd : q.Delta with
    | none =>
      simp [UpdateMetrics, hk, hd] at hok
    | some d =>
      cases hg : Atoi (FormatInt d) with
      | none =>
        have hstep : s.Repo.UpdateCounterMetrics st q.ID (FormatInt d) =
            (st, Except.error (Error.parseCounter (FormatInt d))) := by
          rw [hrepo]
          show st.UpdateCounterMetrics q.ID (FormatInt d) = _
          simp [MemStorage.UpdateCounterMetrics, hg]
        simp [UpdateMetrics, hk, hd, hkey, hstep] at hok
      | some g =>
        have hup := UpdateMetrics_counter_mem lib s hrepo hkey st fs q d g hk hd hg
        rw [hup] at hok
        have hr := syncAndReturn_ok _ _ _ _ _ hok
        refine ⟨wrapInt64 ((st.CounterMetrics.lookup q.ID).getD 0 + g), ?_, ?_, ?_⟩
        · rw [hr]
        · intro d1 hd1 hfit
          have hdd : d1 = d := (Option.some.inj hd1).symm
          rw [hdd] at hfit
          rw [Atoi_FormatInt d hfit] at hg
          rw [hdd, Option.some.inj hg]
        · intro q1 hid hk1
          rw [hup, syncAndReturn_fst]
          have hparse : ParseInt (FormatInt
              (wrapInt64 ((st.CounterMetrics.lookup q.ID).getD 0 + g))) =
              some (wrapInt64 ((st.CounterMetrics.lookup q.ID).getD 0 + g)) :=
            Atoi_FormatInt _ (wrapInt64_fits _)
          simp [GetMetric, hk1, hrepo, MemStorage.asStorage, MemStorage.GetCounterMetrics, hid,
            hparse, hkey]
  · intro hk v hv hrt q1 hid hk1
    have hup := UpdateMetrics_gauge_mem lib s hrepo hkey st fs q v v hk hv hrt
    rw [hup, syncAndReturn_fst]
    simp [GetMetric, hk1, hgc, hrepo, MemStorage.asStorage, MemStorage.GetGaugeMetrics, hid,
      hrt, hkey]

/-- Witness of `read_after_write`: the counter `Requests` updated with 5 and
then 3 reads 8, and the gauge `Temp` updated with 1.5 and then 2.75 reads
2.75. -/
theorem read_after_write_witness :
    (plainStorager "").GetMetric sampleLib
        (UpdateMetrics sampleLib (plainStorager "")
          (UpdateMetrics sampleLib (plainStorager "") (MemStorage.NewRepository sampleLib) ()
            { ID := "Requests", MType := "counter", Delta := some 5 }).1 ()
          { ID := "Requests", MType := "counter", Delta := some 3 }).1
        { ID := "Requests", MType := "counter" } =
        Except.ok { ID := "Requests", MType := "counter", Delta := some 8 } ∧
      (plainStorager "").GetMetric sampleLib
        (UpdateMetrics sampleLib (plainStorager "")
          (UpdateMetrics sampleLib (plainStorager "") (MemStorage.NewRepository sampleLib) ()
            { ID := "Temp", MType := "gauge", Value := some SampleFloat.f1_5 }).1 ()
          { ID := "Temp", MType := "gauge", Value := some SampleFloat.f2_75 }).1
        { ID := "Temp", MType := "gauge" } =
        Except.ok { ID := "Temp", MType := "gauge", Value := some SampleFloat.f2_75 } := by
  constructor
  · obtain ⟨t, _, ht, hget⟩ := (read_after_write sampleLib (plainStorager "") rfl rfl
      (UpdateMetrics sampleLib (plainStorager "") (MemStorage.NewRepository sampleLib) ()
        { ID := "Requests", MType := "counter", Delta := some 5 }).1 ()
      { ID := "Requests", MType := "counter", Delta := some 3 }
      { ID := "Requests", MType := "counter", Delta := some 8 } (by decide)).1 rfl
    have h8 : t = 8 := by
      rw [ht 3 rfl (by decide)]; decide
    rw [hget { ID := "Requests", MType := "counter" } rfl rfl, h8]
  · exact (read_after_write sampleLib (plainStorager "") rfl rfl
      (UpdateMetrics sampleLib (plainStorager "") (MemStorage.NewRepository sampleLib) ()
        { ID := "Temp", MType := "gauge", Value := some SampleFloat.f1_5 }).1 ()
      { ID := "Temp", MType := "gauge", Value := some SampleFloat.f2_75 }
      { ID := "Temp", MType := "gauge", Value := some SampleFloat.f2_75 } (by decide)).2 rfl
      SampleFloat.f2_75 rfl (by decide) { ID := "Temp", MType := "gauge" } rfl rfl

end Storager

/-! ## Sync policy -/

namespace Storager
variable {F σ φ : Type}

/-- The tail of `UpdateMetrics` without file repository returns the
metric. -/
theorem syncAndReturn_withoutFile (s : Storager F σ φ) (st : σ) (m : Metrics F) :
    s.withoutFile.syncAndReturn st () m = (st, (), Outcome.returned (Except.ok m)) := rfl

/-- `UpdateMetrics` is the update without file repository followed, when that
update returns a metric, by the tail on that metric. -/
theorem UpdateMetrics_eq_core (lib : GoLib F) (s : Storager F σ φ) (st : σ) (fs : φ)
    (q : Metrics F) :
    s.UpdateMetrics lib st fs q =
      match s.withoutFile.UpdateMetrics lib st () q with
      | (st1, _, Outcome.returned (Except.error e)) =>
        (st1, fs, Outcome.returned (Except.error e))
      | (st1, _, Outcome.returned (Except.ok r)) => s.syncAndReturn st1 fs r
      | (st1, _, Outcome.panicked) => (st1, fs, Outcome.panicked)
      | (st1, _, Outcome.exited) => (st1, fs, Outcome.exited) := by
  have hrepo : s.withoutFile.Repo = s.Repo := rfl
  have hkey : s.withoutFile.Key = s.Key := rfl
  unfold UpdateMetrics
  simp only [hrepo, hkey, syncAndReturn_withoutFile]
  split
  · cases q.Delta with
    | none => rfl
    | some d =>
      simp only
      split
      · rfl
      · rcases s.Repo.UpdateCounterMetrics st q.ID (FormatInt d) with ⟨st1, r⟩
        cases r <;> rfl
  · split
    · cases q.Value with
      | none => rfl
      | some x =>
        simp only
        split
        · rfl
        · rcases s.Repo.UpdateGaugeMetrics st q.ID (lib.FormatV x) with ⟨st1, r⟩
          cases r <;> rfl
    · rfl

end Storager

namespace Storager
variable {F σ φ : Type}

/-- Claim C14. `FileStore.Sync()` holds exactly when the store interval is
zero. With a file repository `fr`: when the update of a counter succeeds (the
delta is given, the signature check passes and the store returns the total
`v`), then with `Sync()` true the store is the updated one, the file is in the
state that one call of `SaveToDisk` leaves it in, made with the metric that
carries the total `v`, and that metric is returned whenever the call returns;
with `Sync()` false the file is as before and that metric is returned.
Likewise for a gauge, with the metric as it came. When the store rejects the
update, the error is returned and the file is as before; and whenever
`UpdateMetrics` returns an error, or `Sync()` is false, the file is as
before. -/
theorem sync_policy (lib : GoLib F) (s : Storager F σ φ) (fr : FileRepository F φ)
    (hfr : s.FileRepo = some fr) (st : σ) (fs : φ) (q : Metrics F) :
    (∀ f : FileStore F, (f.Sync = true ↔ f.StoreInterval = 0) ∧
        (FileStore.asFileRepository F).Sync f = Outcome.returned f.Sync) ∧
      (∀ d st1 v, q.MType = "counter" → q.Delta = some d →
        (s.Key = "" ∨ hash lib (q.ID ++ ":counter:" ++ FormatInt d) s.Key = q.Hash) →
        s.Repo.UpdateCounterMetrics st q.ID (FormatInt d) = (st1, Except.ok v) →
        (fr.Sync fs = Outcome.returned true →
          (s.UpdateMetrics lib st fs q).1 = st1 ∧
          (s.UpdateMetrics lib st fs q).2.1 = (fr.SaveToDisk fs { q with Delta := some v }).1 ∧
          (∀ e, (fr.SaveToDisk fs { q with Delta := some v }).2 = Outcome.returned e →
            (s.UpdateMetrics lib st fs q).2.2 =
              Outcome.returned (Except.ok { q with Delta := some v }))) ∧
        (fr.Sync fs = Outcome.returned false →
          s.UpdateMetrics lib st fs q =
            (st1, fs, Outcome.returned (Except.ok { q with Delta := some v })))) ∧
      (∀ x st1, q.MType = "gauge" → q.Value = some x →
        (s.Key = "" ∨ hash lib (q.ID ++ ":gauge:" ++ lib.FormatF x) s.Key = q.Hash) →
        s.Repo.UpdateGaugeMetrics st q.ID (lib.FormatV x) = (st1, none) →
        (fr.Sync fs = Outcome.returned true →
          (s.UpdateMetrics lib st fs q).1 = st1 ∧
          (s.UpdateMetrics lib st fs q).2.1 = (fr.SaveToDisk fs q).1 ∧
          (∀ e, (fr.SaveToDisk fs q).2 = Outcome.returned e →
            (s.UpdateMetrics lib st fs q).2.2 = Outcome.returned (Except.ok q))) ∧
        (fr.Sync fs = Outcome.returned false →
          s.UpdateMetrics lib st fs q = (st1, fs, Outcome.returned (Except.ok q)))) ∧
      (∀ d st1 e, q.MType = "counter" → q.Delta = some d →
        (s.Key = "" ∨ hash lib (q.ID ++ ":counter:" ++ FormatInt d) s.Key = q.Hash) →
        s.Repo.UpdateCounterMetrics st q.ID (FormatInt d) = (st1, Except.error e) →
        s.UpdateMetrics lib st fs q =
          (st1, fs, Outcome.returned (Except.error Error.ErrUnableUpdateCounter))) ∧
      (∀ x st1 e, q.MType = "gauge" → q.Value = some x →
        (s.Key = "" ∨ hash lib (q.ID ++ ":gauge:" ++ lib.FormatF x) s.Key = q.Hash) →
        s.Repo.UpdateGaugeMetrics st q.ID (lib.FormatV x) = (st1, some e) →
        s.UpdateMetrics lib st fs q =
          (st1, fs, Outcome.returned (Except.error Error.ErrUnableUpdateGauge))) ∧
      (∀ e, (s.UpdateMetrics lib st fs q).2.2 = Outcome.returned (Except.error e) →
        (s.UpdateMetrics lib st fs q).2.1 = fs) ∧
      (fr.Sync fs = Outcome.returned false → (s.UpdateMetrics lib st fs q).2.1 = fs) := by
  have hgc : ¬ ("gauge" : String) = "counter" := by decide
  have hsave : ∀ (st1 : σ) (r : Metrics F), fr.Sync fs = Outcome.returned true →
      (s.syncAndReturn st1 fs r).1 = st1 ∧
      (s.syncAndReturn st1 fs r).2.1 = (fr.SaveToDisk fs r).1 ∧
      (∀ e, (fr.SaveToDisk fs r).2 = Outcome.returned e →
        (s.syncAndReturn st1 fs r).2.2 = Outcome.returned (Except.ok r)) := by
    intro st1 r hs
    simp only [syncAndReturn, hfr, hs]
    rcases fr.SaveToDisk fs r with ⟨fs1, o1⟩
    cases o1 with
    | returned e => exact ⟨rfl, rfl, fun _ _ => rfl⟩
    | panicked => exact ⟨rfl, rfl, fun e he => by cases he⟩
    | exited => exact ⟨rfl, rfl, fun e he => by cases he⟩
  have hskip : ∀ (st1 : σ) (r : Metrics F), fr.Sync fs = Outcome.returned false →
      s.syncAndReturn st1 fs r = (st1, fs, Outcome.returned (Except.ok r)) := by
    intro st1 r hs
    simp only [syncAndReturn, hfr, hs]
  have hcounter : ∀ d, q.MType = "counter" → q.Delta = some d →
      (s.Key = "" ∨ hash lib (q.ID ++ ":counter:" ++ FormatInt d) s.Key = q.Hash) →
      s.UpdateMetrics lib st fs q =
        match s.Repo.UpdateCounterMetrics st q.ID (FormatInt d) with
        | (st1, Except.error _) =>
          (st1, fs, Outcome.returned (Except.error Error.ErrUnableUpdateCounter))
        | (st1, Except.ok v) => s.syncAndReturn st1 fs { q with Delta := some v } := by
    intro d hk hd hsig
    have hcond : ¬ (s.Key ≠ "" ∧
        hash lib (q.ID ++ ":counter:" ++ FormatInt d) s.Key ≠ q.Hash) := by
      intro h
      rcases hsig with h1 | h1
      · exact h.1 h1
      · exact h.2 h1
    unfold UpdateMetrics
    rw [if_pos hk]
    simp only [hd]
    rw [if_neg hcond]
  have hgauge : ∀ x, q.MType = "gauge" → q.Value = some x →
      (s.Key = "" ∨ hash lib (q.ID ++ ":gauge:" ++ lib.FormatF x) s.Key = q.Hash) →
      s.UpdateMetrics lib st fs q =
        match s.Repo.UpdateGaugeMetrics st q.ID (lib.FormatV x) with
        | (st1, some _) =>
          (st1, fs, Outcome.returned (Except.error Error.ErrUnableUpdateGauge))
        | (st1, none) => s.syncAndReturn st1 fs q := by
    intro x hk hv hsig
    have hcond : ¬ (s.Key ≠ "" ∧
        hash lib (q.ID ++ ":gauge:" ++ lib.FormatF x) s.Key ≠ q.Hash) := by
      intro h
      rcases hsig with h1 | h1
      · exact h.1 h1
      · exact h.2 h1
    have hnc : ¬ q.MType = "counter" := by rw [hk]; exact hgc
    unfold UpdateMetrics
    rw [if_neg hnc, if_pos hk]
    simp only [hv]
    rw [if_neg hcond]
  refine ⟨?_, ?_, ?_, ?_, ?_, ?_, ?_⟩
  · intro f
    exact ⟨by simp [FileStore.Sync], rfl⟩
  · intro d st1 v hk hd hsig hstep
    have h := hcounter d hk hd hsig
    rw [hstep] at h
    simp only at h
    rw [h]
    exact ⟨hsave st1 _, hskip st1 _⟩
  · intro x st1 hk hv hsig hstep
    have h := hgauge x hk hv hsig
    rw [hstep] at h
    simp only at h
    rw [h]
    exact ⟨hsave st1 _, hskip st1 _⟩
  · intro d st1 e hk hd hsig hstep
    have h := hcounter d hk hd hsig
    rw [hstep] at h
    exact h
  · intro x st1 e hk hv hsig hstep
    have h := hgauge x hk hv hsig
    rw [hstep] at h
    exact h
  · intro e
    rw [UpdateMetrics_eq_core]
    rcases s.withoutFile.UpdateMetrics lib st () q with ⟨st1, u, o⟩
    cases o with
    | returned a =>
      cases a with
      | error e1 => intro _; rfl
      | ok r => intro he; exact absurd he (syncAndReturn_ne_error s st1 fs r e)
    | panicked => intro _; rfl
    | exited => intro _; rfl
  · intro hs
    rw [UpdateMetrics_eq_core]
    rcases s.withoutFile.UpdateMetrics lib st () q with ⟨st1, u, o⟩
    cases o with
    | returned a =>
      cases a with
      | error e1 => rfl
      | ok r =>
        show (s.syncAndReturn st1 fs r).2.1 = fs
        rw [hskip st1 r hs]
    | panicked => rfl
    | exited => rfl

/-- Witness of `sync_policy`: over the memory store holding the counter
`Requests` at 8 and an empty file, the update of `Requests` by 3 saves one
record, carrying the total 11, when the store interval is 0; when the interval
is 300 s the file is left as it is and the metric with the total 11 is
returned. -/
theorem sync_policy_witness :
    (UpdateMetrics sampleLib fileStorager sampleStore syncFile
        { ID := "Requests", MType := "counter", Delta := some 3 }).2.1.persisted =
        [{ ID := "Requests", MType := "counter", Delta := some 11 }] ∧
      (UpdateMetrics sampleLib fileStorager sampleStore tickFile
        { ID := "Requests", MType := "counter", Delta := some 3 }).2 =
        (tickFile, Outcome.returned (Except.ok
          { ID := "Requests", MType := "counter", Delta := some 11 })) := by
  have h := (sync_policy sampleLib fileStorager (FileStore.asFileRepository SampleFloat) rfl
    sampleStore syncFile { ID := "Requests", MType := "counter", Delta := some 3 }).2.1
    3 (sampleStore.UpdateCounterMetrics "Requests" "3").1 11 rfl rfl (Or.inl rfl)
    (Prod.ext rfl (by decide))
  have h2 := (sync_policy sampleLib fileStorager (FileStore.asFileRepository SampleFloat) rfl
    sampleStore tickFile { ID := "Requests", MType := "counter", Delta := some 3 }).2.1
    3 (sampleStore.UpdateCounterMetrics "Requests" "3").1 11 rfl rfl (Or.inl rfl)
    (Prod.ext rfl (by decide))
  refine ⟨?_, ?_⟩
  · rw [(h.1 (by decide)).2.1]
    decide
  · rw [h2.2 (by decide)]

end Storager

/-! ## File store: merge of one metric -/

namespace FileStore
variable {F : Type}

/-- When no record has the id of the metric, the loop finds nothing. -/
theorem merge_absent (m : Metrics F) :
    ∀ P : List (Metrics F), (∀ v ∈ P, v.ID ≠ m.ID) → merge P m = Outcome.returned none := by
  intro P
  induction P with
  | nil => intro _; rfl
  | cons v vs ih =>
    intro h
    have hv : v.ID ≠ m.ID := h v (List.mem_cons_self _ _)
    have hvs := ih (fun u hu => h u (List.mem_cons_of_mem _ hu))
    simp [merge, hv, hvs]

/-- When the first record with the id of a counter is a counter with a delta,
that record takes the delta of the metric and the others stay in place. -/
theorem merge_counter (m v : Metrics F) (d0 d : Int) (post : List (Metrics F))
    (hid : v.ID = m.ID) (hk : v.MType = "counter") (hv : v.Delta = some d0)
    (hm : m.Delta = some d) :
    ∀ pre : List (Metrics F), (∀ u ∈ pre, u.ID ≠ m.ID) →
      merge (pre ++ v :: post) m =
        Outcome.returned (some (pre ++ { v with Delta := some d } :: post)) := by
  intro pre
  induction pre with
  | nil => intro _; simp [merge, hid, hk, hv, hm]
  | cons u us ih =>
    intro h
    have hu : u.ID ≠ m.ID := h u (List.mem_cons_self _ _)
    have hus := ih (fun w hw => h w (List.mem_cons_of_mem _ hw))
    simp [merge, hu, hus]

/-- When the first record with the id of a gauge is a gauge with a value,
that record takes the value of the metric and the others stay in place. -/
theorem merge_gauge (m v : Metrics F) (x0 x : F) (post : List (Metrics F))
    (hid : v.ID = m.ID) (hk : v.MType = "gauge") (hv : v.Value = some x0)
    (hm : m.Value = some x) :
    ∀ pre : List (Metrics F), (∀ u ∈ pre, u.ID ≠ m.ID) →
      merge (pre ++ v :: post) m =
        Outcome.returned (some (pre ++ { v with Value := some x } :: post)) := by
  have hgc : ¬ ("gauge" : String) = "counter" := by decide
  intro pre
  induction pre with
  | nil => intro _; simp [merge, hid, hk, hgc, hv, hm]
  | cons u us ih =>
    intro h
    have hu : u.ID ≠ m.ID := h u (List.mem_cons_self _ _)
    have hus := ih (fun w hw => h w (List.mem_cons_of_mem _ hw))
    simp [merge, hu, hus]

/-- Claim C15, behaviour of the code at the failing input. The file holds
the gauge `x` with value 1.5; `SaveToDisk` of the counter `x` with delta 1
finds that record by its id, takes the branch of the record's kind and
dereferences the nil `Value` of the counter: it panics and the file keeps only
the gauge. Through `UpdateMetrics` with the store interval 0, the store has
then taken the counter and the file has not. -/
theorem save_to_disk_kind_collision :
    SaveToDisk
        { persisted := [{ ID := "x", MType := "gauge", Value := some SampleFloat.f1_5 }],
          StoreInterval := 0 }
        { ID := "x", MType := "counter", Delta := some 1 } =
        ({ persisted := [{ ID := "x", MType := "gauge", Value := some SampleFloat.f1_5 }],
           StoreInterval := 0 }, Outcome.panicked) ∧
      (Storager.UpdateMetrics sampleLib fileStorager (MemStorage.NewRepository sampleLib) syncFile
        { ID := "x", MType := "gauge", Value := some SampleFloat.f1_5 }).2 =
        ({ persisted := [{ ID := "x", MType := "gauge", Value := some SampleFloat.f1_5 }],
           StoreInterval := 0 },
          Outcome.returned (Except.ok
            { ID := "x", MType := "gauge", Value := some SampleFloat.f1_5 })) ∧
      (Storager.UpdateMetrics sampleLib fileStorager
        (Storager.UpdateMetrics sampleLib fileStorager (MemStorage.NewRepository sampleLib)
          syncFile { ID := "x", MType := "gauge", Value := some SampleFloat.f1_5 }).1
        { persisted := [{ ID := "x", MType := "gauge", Value := some SampleFloat.f1_5 }],
          StoreInterval := 0 }
        { ID := "x", MType := "counter", Delta := some 1 }).2 =
        ({ persisted := [{ ID := "x", MType := "gauge", Value := some SampleFloat.f1_5 }],
           StoreInterval := 0 }, Outcome.panicked) ∧
      (Storager.UpdateMetrics sampleLib fileStorager
        (Storager.UpdateMetrics sampleLib fileStorager (MemStorage.NewRepository sampleLib)
          syncFile { ID := "x", MType := "gauge", Value := some SampleFloat.f1_5 }).1
        { persisted := [{ ID := "x", MType := "gauge", Value := some SampleFloat.f1_5 }],
          StoreInterval := 0 }
        { ID := "x", MType := "counter", Delta := some 1 }).1.GetCounterMetrics "x" =
        Except.ok "1" := by
  decide

end FileStore

/-! ## Agent: retry policy -/

namespace Agent

/-- Claim C16. If the first success of the primary request is at call `j`
with `j` below 4, the attempts are `j + 1` primary ones, no fallback, and
the result is nil. If the four primary calls fail, the attempts are four
primary ones, followed by exactly one fallback attempt when a fallback
request is given, and the result is nil when that attempt succeeds. So four
primary failures and a fallback success are five attempts and nil. -/
theorem retry_policy (client : Nat → Target → Bool) (fallbackReq : Bool) :
    (∀ j, j < 4 → (∀ i, i < j → client i Target.primary = false) →
        client j Target.primary = true →
        sendMetricsRetryFallback client fallbackReq =
          (List.replicate (j + 1) Target.primary, none)) ∧
      ((∀ i, i < 4 → client i Target.primary = false) →
        sendMetricsRetryFallback client fallbackReq =
          if fallbackReq then
            (List.replicate 4 Target.primary ++ [Target.fallback],
              if client 4 Target.fallback then none else some SendError.fallbackFailed)
          else (List.replicate 4 Target.primary, none)) := by
  constructor
  · intro j hj hfail hok
    have h0 := hfail 0
    have h1 := hfail 1
    have h2 := hfail 2
    interval_cases j
    · simp [sendMetricsRetryFallback, primaryLoop, hok]
    · simp [sendMetricsRetryFallback, primaryLoop, hok, h0]
    · simp [sendMetricsRetryFallback, primaryLoop, hok, h0, h1]
    · simp [sendMetricsRetryFallback, primaryLoop, hok, h0, h1, h2]
  · intro hfail
    have h0 := hfail 0 (by decide)
    have h1 := hfail 1 (by decide)
    have h2 := hfail 2 (by decide)
    have h3 := hfail 3 (by decide)
    cases fallbackReq
    · simp [sendMetricsRetryFallback, primaryLoop, h0, h1, h2, h3]
    · cases hf : client 4 Target.fallback <;>
        simp [sendMetricsRetryFallback, primaryLoop, h0, h1, h2, h3, hf]

/-- Witness of `retry_policy`: a client whose calls 0 to 3 fail and whose
call 4 succeeds, with a fallback request: five attempts, the last one to the
fallback, and the result nil; and a client whose call 1 is the first to
succeed: two attempts. -/
theorem retry_policy_witness :
    sendMetricsRetryFallback (fun k _ => decide (k = 4)) true =
        ([Target.primary, Target.primary, Target.primary, Target.primary, Target.fallback],
          none) ∧
      (sendMetricsRetryFallback (fun k _ => decide (k = 4)) true).1.length = 5 ∧
      sendMetricsRetryFallback (fun k _ => decide (1 ≤ k)) true =
        ([Target.primary, Target.primary], none) := by
  have h := (retry_policy (fun k _ => decide (k = 4)) true).2
    (by intro i hi; simp; omega)
  have h1 := (retry_policy (fun k _ => decide (1 ≤ k)) true).1 1 (by decide)
    (by intro i hi; simp; omega) (by decide)
  refine ⟨?_, ?_, ?_⟩
  · rw [h]; decide
  · rw [h]; decide
  · rw [h1]; decide

end Agent

/-! ## Agent: report batch -/

namespace Agent
variable {F : Type}

/-- Claim C17. The batch of the reporting branch is one metric of kind gauge
per name of the gauge map (the ids of the first part are the keys of the map,
each once), each with the current value of its gauge and no delta, followed by
the counter `PollCount` with the sample counter as delta: |gauges|+1 entries.
With the empty key every hash is empty, with another key every hash is the
HMAC of the canonical string of its entry, hence (an HMAC text being never
empty) an entry carries a hash exactly when the key is not empty. The sample
set after the step is the one before. -/
theorem report_batch (lib : GoLib F) (metrics : MetricValues F) (key : String) :
    (reportBatch lib metrics key).length = metrics.Gauge.keys.length + 1 ∧
      ((reportBatch lib metrics key).take metrics.Gauge.keys.length).map Metrics.ID =
        metrics.Gauge.keys ∧
      metrics.Gauge.keys.Nodup ∧
      (∀ e ∈ (reportBatch lib metrics key).take metrics.Gauge.keys.length,
        e.MType = "gauge" ∧ e.Delta = none ∧ e.Value ≠ none ∧
          e.Value = metrics.Gauge.lookup e.ID ∧
          e.Hash = if key ≠ "" then
            lib.HmacSHA256Hex key (e.ID ++ ":gauge:" ++
              (e.Value.map lib.FormatF).getD "") else "") ∧
      (reportBatch lib metrics key).drop metrics.Gauge.keys.length =
        [{ ID := "PollCount", MType := "counter", Delta := some metrics.PollCount,
           Hash := if key ≠ "" then
             lib.HmacSHA256Hex key ("PollCount:counter:" ++ FormatInt metrics.PollCount)
             else "" }] ∧
      ((∀ k d, lib.HmacSHA256Hex k d ≠ "") →
        ∀ e ∈ reportBatch lib metrics key, (e.Hash ≠ "" ↔ key ≠ "")) ∧
      (reportStep lib metrics key).1 = metrics := by
  have hlen : (metrics.Gauge.entries.map (fun e : Sigma (fun _ : String => F) =>
      ({ ID := e.1, MType := "gauge", Value := some e.2,
         Hash := if key ≠ "" then hash lib (e.1 ++ ":gauge:" ++ lib.FormatF e.2) key else "" } :
        Metrics F))).length = metrics.Gauge.keys.length := by
    simp [AList.keys, List.keys]
  refine ⟨?_, ?_, metrics.Gauge.keys_nodup, ?_, ?_, ?_, rfl⟩
  · simp [reportBatch, AList.keys, List.keys]
  · unfold reportBatch
    rw [← hlen, List.take_left']
    · simp [AList.keys, List.keys, Function.comp_def]
    · rfl
  · intro e he
    unfold reportBatch at he
    rw [← hlen, List.take_left' rfl] at he
    obtain ⟨⟨k, x⟩, hmem, rfl⟩ := List.mem_map.1 he
    refine ⟨rfl, rfl, by simp, ?_, ?_⟩
    · exact (AList.mem_lookup_iff.2 hmem).symm
    · simp [hash]
  · unfold reportBatch
    rw [← hlen, List.drop_left' rfl]
    simp [hash]
  · intro hne e he
    unfold reportBatch at he
    rcases List.mem_append.1 he with h | h
    · obtain ⟨⟨k, x⟩, _, rfl⟩ := List.mem_map.1 h
      by_cases hk : key = "" <;> simp [hk, hash, hne]
    · rw [List.mem_singleton] at h
      subst h
      by_cases hk : key = "" <;> simp [hk, hash, hne]

/-- Witness of `report_batch`: the batch of the sample set with gauges
`Alloc` and `RandomValue` and 3 samples, under the key `k`. -/
theorem report_batch_witness :
    reportBatch sampleLib sampleValues "k" =
        [{ ID := "Alloc", MType := "gauge", Value := some SampleFloat.f1_5,
           Hash := "hmac[k][Alloc:gauge:1.500000]" },
         { ID := "RandomValue", MType := "gauge", Value := some SampleFloat.f2_75,
           Hash := "hmac[k][RandomValue:gauge:2.750000]" },
         { ID := "PollCount", MType := "counter", Delta := some 3,
           Hash := "hmac[k][PollCount:counter:3]" }] ∧
      (∀ e ∈ reportBatch sampleLib sampleValues "k", (e.Hash ≠ "" ↔ "k" ≠ "")) ∧
      (∀ e ∈ reportBatch sampleLib sampleValues "", (e.Hash ≠ "" ↔ "" ≠ "")) :=
  ⟨by decide,
    (report_batch sampleLib sampleValues "k").2.2.2.2.2.1
      (by
        intro k d h
        have hl := congrArg String.length h
        simp only [sampleLib, String.length_append] at hl
        have h1 : ("]" : String).length = 1 := by decide
        rw [h1] at hl
        simp at hl),
    (report_batch sampleLib sampleValues "").2.2.2.2.2.1
      (by
        intro k d h
        have hl := congrArg String.length h
        simp only [sampleLib, String.length_append] at hl
        have h1 : ("]" : String).length = 1 := by decide
        rw [h1] at hl
        simp at hl)⟩

end Agent

/-! ## Agent: sampling -/

namespace Agent
variable {F : Type}

theorem collectKey_lookup_ne (ofUint64 : Nat → F) (rand : F) (k k1 : String) (h : k1 ≠ k) :
    ∀ (ms : List StatField) (g : GoMap F),
      (collectKey ofUint64 rand ms g k).lookup k1 = g.lookup k1 := by
  have hfold : ∀ (ms : List StatField) (g : GoMap F),
      (ms.foldl (fun g2 fld =>
        if fld.Name = k ∧ fld.Kind = Kind.Uint64 then g2.insert k (ofUint64 fld.Uint) else g2)
        g).lookup k1 = g.lookup k1 := by
    intro ms
    induction ms with
    | nil => intro g; rfl
    | cons a as ih =>
      intro g
      simp only [List.foldl_cons]
      rw [ih]
      split
      · exact AList.lookup_insert_ne h
      · rfl
  intro ms g
  unfold collectKey
  rw [hfold]
  split
  · exact AList.lookup_insert_ne h
  · rfl

theorem collectKey_lookup_self (ofUint64 : Nat → F) (rand : F) (k : String) :
    ∀ (ms : List StatField) (g : GoMap F) (old : F), g.lookup k = some old →
      (collectKey ofUint64 rand ms g k).lookup k =
        some (sampledValue ofUint64 rand ms k old) := by
  have hfold : ∀ (ms : List StatField) (g : GoMap F) (v : F), g.lookup k = some v →
      (ms.foldl (fun g2 fld =>
        if fld.Name = k ∧ fld.Kind = Kind.Uint64 then g2.insert k (ofUint64 fld.Uint) else g2)
        g).lookup k =
      some (ms.foldl (fun v fld =>
        if fld.Name = k ∧ fld.Kind = Kind.Uint64 then ofUint64 fld.Uint else v) v) := by
    intro ms
    induction ms with
    | nil => intro g v hv; exact hv
    | cons a as ih =>
      intro g v hv
      simp only [List.foldl_cons]
      by_cases hc : a.Name = k ∧ a.Kind = Kind.Uint64
      · rw [if_pos hc, if_pos hc]
        exact ih _ _ (AList.lookup_insert g)
      · rw [if_neg hc, if_neg hc]
        exact ih _ _ hv
  intro ms g old hold
  unfold collectKey sampledValue
  by_cases hr : k = "RandomValue"
  · rw [if_pos hr, if_pos hr]
    exact hfold ms _ _ (AList.lookup_insert g)
  · rw [if_neg hr, if_neg hr]
    exact hfold ms _ _ hold

theorem collect_fold_lookup (ofUint64 : Nat → F) (rand : F) (ms : List StatField) :
    ∀ (l : List String) (g : GoMap F), l.Nodup → (∀ k ∈ l, g.lookup k ≠ none) →
      ∀ k, (l.foldl (collectKey ofUint64 rand ms) g).lookup k =
        if k ∈ l then (g.lookup k).map (sampledValue ofUint64 rand ms k) else g.lookup k := by
  intro l
  induction l with
  | nil => intro g _ _ k; simp
  | cons a as ih =>
    intro g hnd hin k
    obtain ⟨hna, hnd1⟩ := List.nodup_cons.1 hnd
    simp only [List.foldl_cons]
    have hin1 : ∀ k1 ∈ as, (collectKey ofUint64 rand ms g a).lookup k1 ≠ none := by
      intro k1 hk1
      have hne : k1 ≠ a := fun h => hna (h ▸ hk1)
      rw [collectKey_lookup_ne ofUint64 rand a k1 hne]
      exact hin k1 (List.mem_cons_of_mem _ hk1)
    rw [ih _ hnd1 hin1 k]
    by_cases hka : k = a
    · subst hka
      obtain ⟨old, hold⟩ := Option.ne_none_iff_exists'.1 (hin k (List.mem_cons_self _ _))
      simp [hna, collectKey_lookup_self ofUint64 rand k ms g old hold, hold]
    · rw [collectKey_lookup_ne ofUint64 rand a k hka]
      simp [hka]

/-- After `collectMetrics` every gauge holds the sampled value of what it
held, and a name that was not a gauge is not one. -/
theorem collectMetrics_lookup (ofUint64 : Nat → F) (rand : F) (ms : List StatField)
    (metricList : MetricValues F) (k : String) :
    (collectMetrics ofUint64 rand ms metricList).Gauge.lookup k =
      (metricList.Gauge.lookup k).map (sampledValue ofUint64 rand ms k) := by
  unfold collectMetrics
  simp only
  rw [collect_fold_lookup ofUint64 rand ms metricList.Gauge.keys metricList.Gauge
    metricList.Gauge.keys_nodup
    (fun k1 hk1 => by
      intro hnone
      exact (AList.lookup_eq_none.1 hnone) (AList.mem_keys.2 hk1)) k]
  split
  · rfl
  · rename_i hk
    have : metricList.Gauge.lookup k = none :=
      AList.lookup_eq_none.2 (fun h => hk (AList.mem_keys.1 h))
    rw [this]; rfl

theorem sampledValue_noField (ofUint64 : Nat → F) (rand : F) (k : String) (old : F)
    (hr : k ≠ "RandomValue") :
    ∀ ms : List StatField, (∀ fld ∈ ms, fld.Name = k → fld.Kind ≠ Kind.Uint64) →
      sampledValue ofUint64 rand ms k old = old := by
  have hfold : ∀ (ms : List StatField) (v : F),
      (∀ fld ∈ ms, fld.Name = k → fld.Kind ≠ Kind.Uint64) →
      ms.foldl (fun v fld =>
        if fld.Name = k ∧ fld.Kind = Kind.Uint64 then ofUint64 fld.Uint else v) v = v := by
    intro ms
    induction ms with
    | nil => intro v _; rfl
    | cons a as ih =>
      intro v h
      simp only [List.foldl_cons]
      have ha : ¬ (a.Name = k ∧ a.Kind = Kind.Uint64) :=
        fun hc => h a (List.mem_cons_self _ _) hc.1 hc.2
      rw [if_neg ha]
      exact ih v (fun fld hf => h fld (List.mem_cons_of_mem _ hf))
  intro ms h
  unfold sampledValue
  rw [if_neg hr]
  exact hfold ms old h

theorem sampledValue_field (ofUint64 : Nat → F) (k : String) (fld : StatField)
    (hn : fld.Name = k) (hk : fld.Kind = Kind.Uint64) :
    ∀ (ms : List StatField) (v : F), (ms.map StatField.Name).Nodup → fld ∈ ms →
      ms.foldl (fun v fld =>
        if fld.Name = k ∧ fld.Kind = Kind.Uint64 then ofUint64 fld.Uint else v) v =
        ofUint64 fld.Uint := by
  intro ms
  induction ms with
  | nil => intro v _ h; cases h
  | cons a as ih =>
    intro v hnd hmem
    simp only [List.map_cons, List.nodup_cons] at hnd
    simp only [List.foldl_cons]
    rcases List.mem_cons.1 hmem with rfl | hin
    · rw [if_pos ⟨hn, hk⟩]
      have hrest : ∀ (l : List StatField) (w : F), (∀ f ∈ l, f.Name ≠ k) →
          l.foldl (fun v fld =>
            if fld.Name = k ∧ fld.Kind = Kind.Uint64 then ofUint64 fld.Uint else v) w = w := by
        intro l
        induction l with
        | nil => intro w _; rfl
        | cons b bs ihb =>
          intro w hb
          simp only [List.foldl_cons]
          have : ¬ (b.Name = k ∧ b.Kind = Kind.Uint64) :=
            fun hc => hb b (List.mem_cons_self _ _) hc.1
          rw [if_neg this]
          exact ihb w (fun f hf => hb f (List.mem_cons_of_mem _ hf))
      apply hrest
      intro f hf hfk
      apply hnd.1
      rw [hn, ← hfk]
      exact List.mem_map_of_mem _ hf
    · exact ih _ hnd.2 hin

end Agent

namespace Agent
variable {F : Type}

/-- Claim C18 (the code differs). The statistics record reads 1024 in `Alloc`
and 7 in `NumGC`; after `collectMetrics` the gauge `Alloc` holds 1024 but the
gauge `NumGC`, a name of `getMetricNames` and the name of a field of the
record, still holds 0 and not 7: the field has kind `Uint32`, and the loop
copies a field only when its kind is `Uint64`. -/
theorem sampling_skips_other_kinds :
    (collectMetrics (fun n => n) 0 sampleStats wholeValues).Gauge.lookup "NumGC" = some 0 ∧
      ({ Name := "NumGC", Kind := Kind.Uint32, Uint := 7 } : StatField) ∈ sampleStats ∧
      (collectMetrics (fun n => n) 0 sampleStats wholeValues).Gauge.lookup "Alloc" =
        some 1024 := by
  decide

/-- Extent of the sampling. After `collectMetrics`, a tracked gauge whose name
is the name of a field of kind `Uint64` of the statistics record (the field
names being distinct) holds the value of that field; a tracked gauge other
than `RandomValue` whose name is only the name of fields of other kinds keeps
the value it had. Of the tracked names of `getMetricNames`, all but
`GCCPUFraction`, `NumGC`, `NumForcedGC` and `RandomValue` name a field of
kind `Uint64` of `runtime.MemStats`, and those three name fields of other
kinds. -/
theorem sampling_copies_uint64 (ofUint64 : Nat → F) (rand : F) (ms : List StatField)
    (metricList : MetricValues F) (hnames : (ms.map StatField.Name).Nodup) :
    (∀ k old fld, metricList.Gauge.lookup k = some old → fld ∈ ms → fld.Name = k →
        fld.Kind = Kind.Uint64 →
        (collectMetrics ofUint64 rand ms metricList).Gauge.lookup k =
          some (ofUint64 fld.Uint)) ∧
      (∀ k old, metricList.Gauge.lookup k = some old → k ≠ "RandomValue" →
        (∀ fld ∈ ms, fld.Name = k → fld.Kind ≠ Kind.Uint64) →
        (collectMetrics ofUint64 rand ms metricList).Gauge.lookup k = some old) ∧
      (∀ k ∈ getMetricNames,
        k ∉ ["GCCPUFraction", "NumGC", "NumForcedGC", "RandomValue"] →
        (k, Kind.Uint64) ∈ memStatsFields) ∧
      (∀ d ∈ memStatsFields,
        d.1 ∈ ["GCCPUFraction", "NumGC", "NumForcedGC", "RandomValue"] →
        d.2 ≠ Kind.Uint64) := by
  refine ⟨?_, ?_, ?_, ?_⟩
  · intro k old fld hold hmem hn hk
    rw [collectMetrics_lookup, hold]
    simp only [Option.map_some']
    unfold sampledValue
    rw [sampledValue_field ofUint64 k fld hn hk ms _ hnames hmem]
  · intro k old hold hr hno
    rw [collectMetrics_lookup, hold]
    simp only [Option.map_some']
    rw [sampledValue_noField ofUint64 rand k old hr ms hno]
  · decide
  · decide

/-- An instance of `sampling_copies_uint64`: with the reading of 1024 in
`Alloc`, the gauge `Alloc` of the sample set holds 1024 after
`collectMetrics`. -/
theorem sampling_copies_uint64_witness :
    (sampleStats.map StatField.Name).Nodup ∧
      (collectMetrics (fun n => n) 0 sampleStats wholeValues).Gauge.lookup "Alloc" =
        some 1024 :=
  ⟨by decide,
    (sampling_copies_uint64 (fun n => n) 0 sampleStats wholeValues (by decide)).1
      "Alloc" 0 { Name := "Alloc", Kind := Kind.Uint64, Uint := 1024 }
      (by decide) (by decide) rfl rfl⟩

/-- Claim C19. `collectMetrics` adds one to `PollCount` (in 64 bits: exactly
one whenever the successor fits `int64`), leaves the set of gauge names as it
is, and leaves the value of every gauge other than `RandomValue` whose name is
the name of no field of the statistics record as it is. -/
theorem sampling_frame (ofUint64 : Nat → F) (rand : F) (ms : List StatField)
    (metricList : MetricValues F) :
    (collectMetrics ofUint64 rand ms metricList).PollCount =
        wrapInt64 (metricList.PollCount + 1) ∧
      (inInt64 (metricList.PollCount + 1) = true →
        (collectMetrics ofUint64 rand ms metricList).PollCount = metricList.PollCount + 1) ∧
      (∀ k, k ∈ (collectMetrics ofUint64 rand ms metricList).Gauge ↔ k ∈ metricList.Gauge) ∧
      (∀ k, k ≠ "RandomValue" → (∀ fld ∈ ms, fld.Name ≠ k) →
        (collectMetrics ofUint64 rand ms metricList).Gauge.lookup k =
          metricList.Gauge.lookup k) := by
  refine ⟨rfl, fun h => wrapInt64_of_fits _ h, ?_, ?_⟩
  · intro k
    rw [← AList.lookup_isSome, ← AList.lookup_isSome, collectMetrics_lookup]
    cases metricList.Gauge.lookup k <;> rfl
  · intro k hr hno
    rw [collectMetrics_lookup]
    cases hold : metricList.Gauge.lookup k with
    | none => rfl
    | some old =>
      simp only [Option.map_some']
      rw [sampledValue_noField ofUint64 rand k old hr ms
        (fun fld hf hn => absurd hn (hno fld hf))]

/-- Witness of `sampling_frame`: on the sample set with the gauges `Alloc`,
`NoSuchField` and `RandomValue` and the reading of the whole statistics record
with 1024 in `Alloc`, `PollCount` goes from 3 to 4, the gauge `NoSuchField`,
the name of no field, keeps its value 4, the gauge `Alloc` takes the reading
1024, and there are three names as before. -/
theorem sampling_frame_witness :
    (collectMetrics (fun n => n) 5 sampleStats frameValues).PollCount = 4 ∧
      (collectMetrics (fun n => n) 5 sampleStats frameValues).Gauge.lookup "NoSuchField" =
        some 4 ∧
      (collectMetrics (fun n => n) 5 sampleStats frameValues).Gauge.lookup "Alloc" =
        some 1024 ∧
      (collectMetrics (fun n => n) 5 sampleStats frameValues).Gauge.keys.length = 3 :=
  ⟨(sampling_frame (fun n => n) 5 sampleStats frameValues).2.1 (by decide),
    ((sampling_frame (fun n => n) 5 sampleStats frameValues).2.2.2 "NoSuchField" (by decide)
      (by decide)).trans (by decide),
    by decide, by decide⟩

end Agent

namespace ServerHandlers

variable {F σ φ : Type}

/-- C20 (the code differs): the handler `update` answers 400 and leaves store
and file as they were when the value is not a float, for every type; but for
the type `counter` a value that is a float and not an integer (such as `1.5`)
is answered with 500, not with 400; store and file are as they were. -/
theorem update_malformed_number (lib : GoLib F) (s : Storager F σ φ) (st : σ) (fs : φ)
    (t n m : String) :
    (lib.ParseFloat m = none →
      update lib s st fs t n m =
        (st, fs, Outcome.returned { Status := 400, ContentType := none })) ∧
    (∀ x, lib.ParseFloat m = some x → ParseInt m = none →
      update lib s st fs "counter" n m =
        (st, fs, Outcome.returned { Status := 500, ContentType := none })) := by
  refine ⟨?_, ?_⟩
  · intro h
    simp only [update, h]
  · intro x hx hi
    simp only [update, hx, hi, if_true]

/-- Witness of `update_malformed_number`: on the fresh memory store the
counter value `abc` is answered with 400 and the counter value `1.5` with 500,
and the store is the fresh one after both. -/
theorem update_malformed_number_witness :
    sampleLib.ParseFloat "abc" = none ∧
    update sampleLib (plainStorager "") (MemStorage.NewRepository sampleLib) () "counter" "x" "abc" =
      (MemStorage.NewRepository sampleLib, (),
        Outcome.returned { Status := 400, ContentType := none }) ∧
    sampleLib.ParseFloat "1.5" = some SampleFloat.f1_5 ∧ ParseInt "1.5" = none ∧
    update sampleLib (plainStorager "") (MemStorage.NewRepository sampleLib) () "counter" "x" "1.5" =
      (MemStorage.NewRepository sampleLib, (),
        Outcome.returned { Status := 500, ContentType := none }) :=
  ⟨by decide,
    (update_malformed_number sampleLib (plainStorager "") (MemStorage.NewRepository sampleLib) ()
      "counter" "x" "abc").1 (by decide),
    by decide, by decide,
    (update_malformed_number sampleLib (plainStorager "") (MemStorage.NewRepository sampleLib) ()
      "counter" "x" "1.5").2 SampleFloat.f1_5 (by decide) (by decide)⟩

end ServerHandlers

/-! ## Path-encoded update handler: success -/

namespace ServerHandlers

variable {F σ φ : Type}

/-- Claim C21. For every metric name: for the type `gauge` with a value that
parses as a float, and for the type `counter` with a value that parses as a
float and as an integer, when `UpdateMetrics` accepts the metric the handler
`update` answers with status 200 and `Content-Type: text/plain`, and the
states of store and file are those `UpdateMetrics` left. -/
theorem update_success (lib : GoLib F) (s : Storager F σ φ) (st : σ) (fs : φ)
    (n m : String) (st1 : σ) (fs1 : φ) (r : Metrics F) :
    (∀ x, lib.ParseFloat m = some x →
      s.UpdateMetrics lib st fs { ID := n, MType := "gauge", Value := some x } =
        (st1, fs1, Outcome.returned (Except.ok r)) →
      update lib s st fs "gauge" n m =
        (st1, fs1, Outcome.returned { Status := 200, ContentType := some "text/plain" })) ∧
    (∀ x d, lib.ParseFloat m = some x → ParseInt m = some d →
      s.UpdateMetrics lib st fs { ID := n, MType := "counter", Delta := some d } =
        (st1, fs1, Outcome.returned (Except.ok r)) →
      update lib s st fs "counter" n m =
        (st1, fs1, Outcome.returned { Status := 200, ContentType := some "text/plain" })) := by
  have hgc : ¬ ("gauge" : String) = "counter" := by decide
  refine ⟨?_, ?_⟩
  · intro x hx hu
    simp only [update, hx, hgc, if_false, if_true, updateStore, hu]
  · intro x d hx hd hu
    simp only [update, hx, hd, if_true, updateStore, hu]

/-- Witness of `update_success`: on the fresh memory store without key and
without file, `/update/gauge/Sys/1.5` and `/update/counter/Counter/0` are
answered with 200 and `text/plain`. -/
theorem update_success_witness :
    (update sampleLib (plainStorager "") (MemStorage.NewRepository sampleLib) ()
        "gauge" "Sys" "1.5").2.2 =
      Outcome.returned { Status := 200, ContentType := some "text/plain" } ∧
    (update sampleLib (plainStorager "") (MemStorage.NewRepository sampleLib) ()
        "counter" "Counter" "0").2.2 =
      Outcome.returned { Status := 200, ContentType := some "text/plain" } :=
  ⟨congrArg (fun p => p.2.2)
      ((update_success sampleLib (plainStorager "") (MemStorage.NewRepository sampleLib) ()
        "Sys" "1.5"
        ((plainStorager "").UpdateMetrics sampleLib (MemStorage.NewRepository sampleLib) ()
          { ID := "Sys", MType := "gauge", Value := some SampleFloat.f1_5 }).1
        ()
        { ID := "Sys", MType := "gauge", Value := some SampleFloat.f1_5 }).1
        SampleFloat.f1_5 (by decide) (Prod.ext rfl (Prod.ext rfl (by decide)))),
    congrArg (fun p => p.2.2)
      ((update_success sampleLib (plainStorager "") (MemStorage.NewRepository sampleLib) ()
        "Counter" "0"
        ((plainStorager "").UpdateMetrics sampleLib (MemStorage.NewRepository sampleLib) ()
          { ID := "Counter", MType := "counter", Delta := some 0 }).1
        ()
        { ID := "Counter", MType := "counter", Delta := some 0 }).2
        SampleFloat.f0 0 (by decide) (by decide) (Prod.ext rfl (Prod.ext rfl (by decide))))⟩

end ServerHandlers

/-! ## Agent: initial sample set -/

namespace Agent
variable {F : Type}

/-- Assigning one value to every name of a list, in a gauge map: a listed
name reads that value, any other name reads what it read before. -/
theorem assignAll_lookup (z : F) (k : String) :
    ∀ (l : List String) (g : GoMap F),
      (l.foldl (fun g v => g.insert v z) g).lookup k =
        if k ∈ l then some z else g.lookup k := by
  intro l
  induction l with
  | nil => intro g; simp
  | cons a l ih =>
    intro g
    rw [List.foldl_cons, ih]
    by_cases hl : k ∈ l
    · simp [hl]
    · by_cases hka : k = a
      · subst hka
        simp [hl, AList.lookup_insert]
      · simp [hl, hka, AList.lookup_insert_ne hka]

/-- Claim C22. For every list of names, the gauge map of `newMetricValues` has
exactly the listed names as keys, each once (the keys are the list without
its duplicates, in some order), every listed name reads the gauge 0, and
`PollCount` is 0. -/
theorem newMetricValues_initial (lib : GoLib F) (metricList : List String) :
    (∀ k, k ∈ (newMetricValues lib metricList).Gauge ↔ k ∈ metricList) ∧
      (∀ k, k ∈ metricList → (newMetricValues lib metricList).Gauge.lookup k = some lib.Zero) ∧
      (∀ k, k ∉ metricList → (newMetricValues lib metricList).Gauge.lookup k = none) ∧
      (newMetricValues lib metricList).Gauge.keys.Perm metricList.dedup ∧
      (newMetricValues lib metricList).PollCount = 0 := by
  have hlook : ∀ k, (newMetricValues lib metricList).Gauge.lookup k =
      if k ∈ metricList then some lib.Zero else none := by
    intro k
    show (metricList.foldl (fun g v => g.insert v lib.Zero) (∅ : GoMap F)).lookup k = _
    rw [assignAll_lookup, AList.lookup_empty]
  have hmem : ∀ k, k ∈ (newMetricValues lib metricList).Gauge ↔ k ∈ metricList := by
    intro k
    rw [← AList.lookup_isSome, hlook]
    by_cases h : k ∈ metricList <;> simp [h]
  refine ⟨hmem, ?_, ?_, ?_, rfl⟩
  · intro k hk
    rw [hlook, if_pos hk]
  · intro k hk
    rw [hlook, if_neg hk]
  · apply (List.perm_ext_iff_of_nodup (newMetricValues lib metricList).Gauge.keys_nodup
      (List.nodup_dedup metricList)).2
    intro k
    rw [List.mem_dedup, ← hmem k, AList.mem_keys]

/-- Witness of `newMetricValues_initial`: for the names `Alloc`,
`BuckHashSys`, `Frees`, `RandomValue` and `Alloc` once more, the gauge `Alloc`
reads 0, the name `Sys` is no gauge, there are four keys and `PollCount` is
0. -/
theorem newMetricValues_initial_witness :
    (newMetricValues sampleLib
        ["Alloc", "BuckHashSys", "Frees", "RandomValue", "Alloc"]).Gauge.lookup "Alloc" =
        some SampleFloat.f0 ∧
      (newMetricValues sampleLib
        ["Alloc", "BuckHashSys", "Frees", "RandomValue", "Alloc"]).Gauge.lookup "Sys" = none ∧
      (newMetricValues sampleLib
        ["Alloc", "BuckHashSys", "Frees", "RandomValue", "Alloc"]).Gauge.keys.length = 4 ∧
      (newMetricValues sampleLib
        ["Alloc", "BuckHashSys", "Frees", "RandomValue", "Alloc"]).PollCount = 0 :=
  ⟨(newMetricValues_initial sampleLib
      ["Alloc", "BuckHashSys", "Frees", "RandomValue", "Alloc"]).2.1 "Alloc" (by decide),
    (newMetricValues_initial sampleLib
      ["Alloc", "BuckHashSys", "Frees", "RandomValue", "Alloc"]).2.2.1 "Sys" (by decide),
    by decide,
    (newMetricValues_initial sampleLib
      ["Alloc", "BuckHashSys", "Frees", "RandomValue", "Alloc"]).2.2.2.2⟩

end Agent

/-! ## Memory store: a batch and its single updates -/

namespace MemStorage
variable {F : Type}

/-- Claim C23. Let every counter entry of the batch carry a delta (an
`int64`) and every gauge entry a value whose `%v` text parses back to it.
Then `UpdateBatchMetrics` returns nil and leaves the store in the state in
which the single updates, applied one by one in the order of the batch with
the delta in decimal and the value under `%v`, leave it, and none of those
single updates returns an error. An entry of another kind changes nothing and
causes no error. -/
theorem batch_equals_single_updates (lib : GoLib F) :
    ∀ (batch : List (Metrics F)) (m : MemStorage F),
      (∀ v ∈ batch, v.MType = "counter" → ∃ d, v.Delta = some d ∧ inInt64 d = true) →
      (∀ v ∈ batch, v.MType = "gauge" →
        ∃ x, v.Value = some x ∧ lib.ParseFloat (lib.FormatV x) = some x) →
      m.UpdateBatchMetrics batch = ((singleUpdates lib m batch).1, Outcome.returned none) ∧
        (singleUpdates lib m batch).2 = none ∧
        (∀ v : Metrics F, v.MType ≠ "counter" → v.MType ≠ "gauge" →
          m.UpdateBatchMetrics (v :: batch) = m.UpdateBatchMetrics batch ∧
          singleUpdates lib m (v :: batch) = singleUpdates lib m batch) := by
  intro batch
  induction batch with
  | nil =>
    intro m _ _
    refine ⟨rfl, rfl, ?_⟩
    intro v hc hg
    simp [UpdateBatchMetrics, singleUpdates, hc, hg]
  | cons v vs ih =>
    intro m hcs hgs
    have hskip : ∀ w : Metrics F, w.MType ≠ "counter" → w.MType ≠ "gauge" →
        m.UpdateBatchMetrics (w :: v :: vs) = m.UpdateBatchMetrics (v :: vs) ∧
        singleUpdates lib m (w :: v :: vs) = singleUpdates lib m (v :: vs) := by
      intro w hc hg
      constructor
      · rw [UpdateBatchMetrics, if_neg hc, if_neg hg]
      · rw [singleUpdates, if_neg hc, if_neg hg]
    have hcs1 : ∀ w ∈ vs, w.MType = "counter" → ∃ d, w.Delta = some d ∧ inInt64 d = true :=
      fun w hw => hcs w (List.mem_cons_of_mem _ hw)
    have hgs1 : ∀ w ∈ vs, w.MType = "gauge" →
        ∃ x, w.Value = some x ∧ lib.ParseFloat (lib.FormatV x) = some x :=
      fun w hw => hgs w (List.mem_cons_of_mem _ hw)
    by_cases hc : v.MType = "counter"
    · obtain ⟨d, hd, hfit⟩ := hcs v (List.mem_cons_self _ _) hc
      have hup := UpdateCounterMetrics_of_parse m v.ID (FormatInt d) d (Atoi_FormatInt d hfit)
      have hrec := ih ⟨m.GaugeMetrics, m.CounterMetrics.insert v.ID
        (wrapInt64 ((m.CounterMetrics.lookup v.ID).getD 0 + d))⟩ hcs1 hgs1
      refine ⟨?_, ?_, hskip⟩
      · rw [UpdateBatchMetrics, if_pos hc, singleUpdates, if_pos hc]
        simp only [hd, hup]
        exact hrec.1
      · rw [singleUpdates, if_pos hc]
        simp only [hd, hup]
        exact hrec.2.1
    · by_cases hg : v.MType = "gauge"
      · obtain ⟨x, hx, hround⟩ := hgs v (List.mem_cons_self _ _) hg
        have hup : m.UpdateGaugeMetrics lib v.ID (lib.FormatV x) =
            (⟨m.GaugeMetrics.insert v.ID x, m.CounterMetrics⟩, none) := by
          simp [UpdateGaugeMetrics, hround]
        have hrec := ih ⟨m.GaugeMetrics.insert v.ID x, m.CounterMetrics⟩ hcs1 hgs1
        refine ⟨?_, ?_, hskip⟩
        · rw [UpdateBatchMetrics, if_neg hc, if_pos hg, singleUpdates, if_neg hc, if_pos hg]
          simp only [hx, hup]
          exact hrec.1
        · rw [singleUpdates, if_neg hc, if_pos hg]
          simp only [hx, hup]
          exact hrec.2.1
      · have hrec := ih m hcs1 hgs1
        refine ⟨?_, ?_, hskip⟩
        · rw [UpdateBatchMetrics, if_neg hc, if_neg hg, singleUpdates, if_neg hc, if_neg hg]
          exact hrec.1
        · rw [singleUpdates, if_neg hc, if_neg hg]
          exact hrec.2.1

/-- Witness of `batch_equals_single_updates`: on the sample store the batch of
the counter `a` by 5, the gauge `t` at 1.5, an entry of kind `timer` and the
counter `a` by 3 returns nil and leaves the store in the state in which the
four single updates leave it. -/
theorem batch_equals_single_updates_witness :
    (sampleStore.UpdateBatchMetrics
        [{ ID := "a", MType := "counter", Delta := some 5 },
         { ID := "t", MType := "gauge", Value := some SampleFloat.f1_5 },
         { ID := "u", MType := "timer" },
         { ID := "a", MType := "counter", Delta := some 3 }]).2 = Outcome.returned none ∧
      (sampleStore.UpdateBatchMetrics
        [{ ID := "a", MType := "counter", Delta := some 5 },
         { ID := "t", MType := "gauge", Value := some SampleFloat.f1_5 },
         { ID := "u", MType := "timer" },
         { ID := "a", MType := "counter", Delta := some 3 }]).1 =
        (singleUpdates sampleLib sampleStore
          [{ ID := "a", MType := "counter", Delta := some 5 },
           { ID := "t", MType := "gauge", Value := some SampleFloat.f1_5 },
           { ID := "u", MType := "timer" },
           { ID := "a", MType := "counter", Delta := some 3 }]).1 :=
  ⟨congrArg Prod.snd
      (batch_equals_single_updates sampleLib
        [{ ID := "a", MType := "counter", Delta := some 5 },
         { ID := "t", MType := "gauge", Value := some SampleFloat.f1_5 },
         { ID := "u", MType := "timer" },
         { ID := "a", MType := "counter", Delta := some 3 }] sampleStore
        (by decide) (by decide)).1,
    congrArg Prod.fst
      (batch_equals_single_updates sampleLib
        [{ ID := "a", MType := "counter", Delta := some 5 },
         { ID := "t", MType := "gauge", Value := some SampleFloat.f1_5 },
         { ID := "u", MType := "timer" },
         { ID := "a", MType := "counter", Delta := some 3 }] sampleStore
        (by decide) (by decide)).1⟩

end MemStorage

/-! ## Agent: result of the delivery -/

namespace Agent

/-- Claim C24 (the code differs). When `sendMetricsRetryFallback` returns an
error, no attempt succeeded: the four primary calls and the fallback call
failed. The converse fails: without a fallback request the result is nil for
every client, also for the client whose every call fails, where the four
primary attempts are made and nil is returned. -/
theorem no_fallback_returns_nil :
    (∀ (client : Nat → Target → Bool) (fallbackReq : Bool) (err : SendError),
        (sendMetricsRetryFallback client fallbackReq).2 = some err →
        (∀ i, i < 4 → client i Target.primary = false) ∧
          client 4 Target.fallback = false ∧ fallbackReq = true) ∧
      (∀ client : Nat → Target → Bool, (sendMetricsRetryFallback client false).2 = none) ∧
      sendMetricsRetryFallback (fun _ _ => false) false =
        ([Target.primary, Target.primary, Target.primary, Target.primary], none) := by
  refine ⟨?_, ?_, by decide⟩
  · intro client fallbackReq err h
    cases h0 : client 0 Target.primary <;> cases h1 : client 1 Target.primary <;>
      cases h2 : client 2 Target.primary <;> cases h3 : client 3 Target.primary <;>
      cases h4 : client 4 Target.fallback <;> cases fallbackReq <;>
      simp [sendMetricsRetryFallback, primaryLoop, h0, h1, h2, h3, h4] at h
    refine ⟨?_, rfl, rfl⟩
    intro i hi
    interval_cases i <;> assumption
  · intro client
    cases h0 : client 0 Target.primary <;> cases h1 : client 1 Target.primary <;>
      cases h2 : client 2 Target.primary <;> cases h3 : client 3 Target.primary <;>
      simp [sendMetricsRetryFallback, primaryLoop, h0, h1, h2, h3]

end Agent

/-! ## Agent and server: signatures -/

namespace Agent
variable {F σ φ : Type}

/-- Claim C25. For every key, every sample set and every server boundary
configured with the same key, each metric of the batch that the agent builds
is not rejected with `ErrIncorrectHash` by `UpdateMetrics`: the hash the
agent attaches is the one the server computes (same HMAC, same canonical
string with `%f` and `%d`), and the call does what the same call does on the
boundary without key, where no check is made. -/
theorem signatures_agree (lib : GoLib F) (s : Storager F σ φ) (st : σ) (fs : φ)
    (metrics : MetricValues F) :
    ∀ e ∈ reportBatch lib metrics s.Key,
      (s.UpdateMetrics lib st fs e).2.2 ≠ Outcome.returned (Except.error Error.ErrIncorrectHash) ∧
        s.UpdateMetrics lib st fs e =
          Storager.UpdateMetrics lib
            ({ Repo := s.Repo, FileRepo := s.FileRepo, Key := "" } : Storager F σ φ) st fs e := by
  have hgc : ¬ ("gauge" : String) = "counter" := by decide
  have htail : ∀ (st1 : σ) (m : Metrics F),
      Storager.syncAndReturn
        ({ Repo := s.Repo, FileRepo := s.FileRepo, Key := "" } : Storager F σ φ) st1 fs m =
        s.syncAndReturn st1 fs m := fun _ _ => rfl
  intro e he
  unfold reportBatch at he
  rw [List.mem_append, List.mem_map, List.mem_singleton] at he
  rcases he with ⟨⟨k, x⟩, _, rfl⟩ | rfl
  · by_cases hkey : s.Key = ""
    · simp only [Storager.UpdateMetrics, hkey, hgc, if_false, if_true, ne_eq, not_true_eq_false,
        false_and, htail]
      constructor
      · cases hr : s.Repo.UpdateGaugeMetrics st k (lib.FormatV x) with
        | mk st1 o =>
          cases o with
          | none => exact Storager.syncAndReturn_ne_error s st1 fs _ _
          | some err => simp
      · trivial
    · simp only [Storager.UpdateMetrics, hkey, hgc, if_false, if_true, ne_eq, not_false_eq_true,
        true_and, false_and, Metricity.hash, hash, not_true_eq_false, htail]
      constructor
      · cases hr : s.Repo.UpdateGaugeMetrics st k (lib.FormatV x) with
        | mk st1 o =>
          cases o with
          | none => exact Storager.syncAndReturn_ne_error s st1 fs _ _
          | some err => simp
      · trivial
  · by_cases hkey : s.Key = ""
    · simp only [Storager.UpdateMetrics, hkey, if_false, if_true, ne_eq, not_true_eq_false,
        false_and, htail]
      constructor
      · cases hr : s.Repo.UpdateCounterMetrics st "PollCount" (FormatInt metrics.PollCount) with
        | mk st1 o =>
          cases o with
          | ok v => exact Storager.syncAndReturn_ne_error s st1 fs _ _
          | error err => simp
      · trivial
    · simp only [Storager.UpdateMetrics, hkey, if_false, if_true, ne_eq, not_false_eq_true,
        true_and, false_and, Metricity.hash, hash, not_true_eq_false, htail]
      constructor
      · cases hr : s.Repo.UpdateCounterMetrics st "PollCount" (FormatInt metrics.PollCount) with
        | mk st1 o =>
          cases o with
          | ok v => exact Storager.syncAndReturn_ne_error s st1 fs _ _
          | error err => simp
      · trivial

/-- Witness of `signatures_agree`: with the key `secret`, the counter
`PollCount` of the batch of the sample set, signed by the agent, is accepted
by the boundary over the memory store configured with `secret`. -/
theorem signatures_agree_witness :
    ({ ID := "PollCount", MType := "counter", Delta := some 3,
       Hash := "hmac[secret][PollCount:counter:3]" } : Metrics SampleFloat) ∈
        reportBatch sampleLib sampleValues "secret" ∧
      ((plainStorager "secret").UpdateMetrics sampleLib (MemStorage.NewRepository sampleLib) ()
        { ID := "PollCount", MType := "counter", Delta := some 3,
          Hash := "hmac[secret][PollCount:counter:3]" }).2.2 ≠
        Outcome.returned (Except.error Error.ErrIncorrectHash) :=
  ⟨by decide,
    (signatures_agree sampleLib (plainStorager "secret") (MemStorage.NewRepository sampleLib) ()
      sampleValues
      { ID := "PollCount", MType := "counter", Delta := some 3,
        Hash := "hmac[secret][PollCount:counter:3]" } (by decide)).1⟩

end Agent

end Metricity
